import Mathlib

/-!
Verification development for the mcp-trader analytics engine
(`src/mcp_trader/indicators.py`).

Prices, volumes and dollar amounts are modelled as exact rationals (`ℚ`).
Python's `round(x, 2)` is modelled by `round2` (round to the nearest
hundredth; Python breaks exact half-cent ties to even, our model rounds
them up — no input exercised below sits on such a tie).  Python's `int()`
is modelled by `pyInt` (truncation toward zero).  Functions that `raise`
are modelled with `Except AnalysisError`; each constructor of
`AnalysisError` records one `raise` site of the source.
-/

/-- Python `round(x, 2)` over exact rationals: round to the nearest
multiple of `1/100`. -/
def round2 (q : ℚ) : ℚ := (round (100 * q) : ℤ) / 100

/-- Python `int(x)`: truncation toward zero. -/
def pyInt (q : ℚ) : ℤ := if 0 ≤ q then ⌊q⌋ else -⌊-q⌋

/-- Minimum of a list of rationals (`pandas.Series.min`); `0` on the
empty list, which no caller below reaches. -/
def minD : List ℚ → ℚ
  | [] => 0
  | a :: rest => rest.foldl min a

/-- Maximum of a list of rationals (`pandas.Series.max`); `0` on the
empty list, which no caller below reaches. -/
def maxD : List ℚ → ℚ
  | [] => 0
  | a :: rest => rest.foldl max a

/-- One row of an OHLCV candle series.  The `date` is a day number
(`pandas` datetime index, daily granularity); the `open` column is not
read by any function embedded here and is omitted. -/
structure Candle where
  date : ℤ
  high : ℚ
  low : ℚ
  close : ℚ
  volume : ℚ
deriving DecidableEq

instance : Inhabited Candle := ⟨⟨0, 0, 0, 0, 0⟩⟩

/-- The `raise` sites of `indicators.py` reachable from the embedded
functions.  Each constructor stands for one exact message string:
* `priceAccountNotPositive` — "Price and account size must be positive"
* `stopNotBelowEntry` — "For long positions, stop price must be below
  entry price"
* `zeroRiskPerShare` — "Risk per share cannot be zero. Entry and stop
  prices must differ."
* `notEnoughDataVolumeProfile` — "Not enough data for volume profile
  analysis"
* `maxEmptySequence` — Python's `max()` on an empty bin list
  (only reachable with `num_bins = 0`)
* `emptyDataFrame` — "DataFrame is empty. Ensure it contains valid data."
-/
inductive AnalysisError where
  | priceAccountNotPositive
  | stopNotBelowEntry
  | zeroRiskPerShare
  | notEnoughDataVolumeProfile
  | maxEmptySequence
  | emptyDataFrame
deriving DecidableEq

/-- Result dictionary of `RiskAnalysis.calculate_position_size`.
`r1`/`r2`/`r3` are the entries of the nested `r_multiples` dict. -/
structure PositionSizeResult where
  recommended_shares : ℤ
  dollar_risk : ℚ
  risk_per_share : ℚ
  position_cost : ℚ
  account_percent_risked : ℚ
  r1 : ℚ
  r2 : ℚ
  r3 : ℚ
deriving DecidableEq

/-- `RiskAnalysis.calculate_position_size` (indicators.py lines 358-432).
Mirrors the source line by line: validation, `risk_per_share`,
`int()` share counts, the `min`, and the `round(_, 2)` calls on every
reported rational. -/
def calculate_position_size (price stop_price risk_amount account_size
    max_risk_percent : ℚ) : Except AnalysisError PositionSizeResult :=
  if price ≤ 0 ∨ account_size ≤ 0 then
    .error .priceAccountNotPositive
  else if price ≤ stop_price ∧ stop_price ≠ 0 then
    .error .stopNotBelowEntry
  else
    let risk_per_share := |price - stop_price|
    if risk_per_share = 0 then
      .error .zeroRiskPerShare
    else
      let shares_based_on_risk := pyInt (risk_amount / risk_per_share)
      let max_risk_dollars := account_size * (max_risk_percent / 100)
      let max_shares := pyInt (max_risk_dollars / risk_per_share)
      let recommended_shares := min shares_based_on_risk max_shares
      let actual_dollar_risk := (recommended_shares : ℚ) * risk_per_share
      let position_cost := (recommended_shares : ℚ) * price
      .ok ⟨recommended_shares,
           round2 actual_dollar_risk,
           round2 risk_per_share,
           round2 position_cost,
           round2 (actual_dollar_risk / account_size * 100),
           round2 (price + risk_per_share),
           round2 (price + 2 * risk_per_share),
           round2 (price + 3 * risk_per_share)⟩

/-! ### Arithmetic facts about the Python-rounding models -/

theorem round2_mono {a b : ℚ} (h : a ≤ b) : round2 a ≤ round2 b := by
  unfold round2
  have h2 : round ((100:ℚ) * a) ≤ round ((100:ℚ) * b) := by
    rw [round_eq, round_eq]
    exact Int.floor_le_floor (by linarith)
  have h3 : ((round ((100:ℚ) * a) : ℤ) : ℚ) ≤ ((round ((100:ℚ) * b) : ℤ) : ℚ) := by
    exact_mod_cast h2
  linarith

theorem round2_idem (q : ℚ) : round2 (round2 q) = round2 q := by
  unfold round2
  have h : (100:ℚ) * ((round ((100:ℚ) * q) : ℤ) / 100) = ((round ((100:ℚ) * q) : ℤ) : ℚ) := by
    field_simp
  rw [h, round_intCast]

theorem round2_le_add (q : ℚ) : round2 q ≤ q + 1 / 200 := by
  unfold round2
  have h := abs_sub_round ((100:ℚ) * q)
  rw [abs_le] at h
  have h2 : ((round ((100:ℚ) * q) : ℤ) : ℚ) ≤ 100 * q + 1 / 2 := by linarith [h.1]
  linarith

theorem sub_le_round2 (q : ℚ) : q - 1 / 200 ≤ round2 q := by
  unfold round2
  have h := abs_sub_round ((100:ℚ) * q)
  rw [abs_le] at h
  have h2 : 100 * q - 1 / 2 ≤ ((round ((100:ℚ) * q) : ℤ) : ℚ) := by linarith [h.2]
  linarith

theorem pyInt_nonneg {q : ℚ} (h : 0 ≤ q) : 0 ≤ pyInt q := by
  unfold pyInt
  rw [if_pos h]
  exact Int.floor_nonneg.mpr h

/-! ### Position sizing: shared evaluation lemma -/

lemma risk_per_share_pos {price stop_price : ℚ} (hp : 0 < price)
    (hs : stop_price < price ∨ stop_price = 0) : 0 < |price - stop_price| := by
  rcases hs with h | h
  · rw [abs_of_pos (by linarith)]; linarith
  · rw [h, sub_zero, abs_of_pos hp]; exact hp

/-- On inputs passing all three validations, `calculate_position_size`
succeeds and every output field is the corresponding source expression. -/
lemma calculate_position_size_ok (price stop_price risk_amount account_size
    max_risk_percent : ℚ) (hp : 0 < price) (ha : 0 < account_size)
    (hs : stop_price < price ∨ stop_price = 0) :
    calculate_position_size price stop_price risk_amount account_size max_risk_percent
      = Except.ok
        ⟨min (pyInt (risk_amount / |price - stop_price|))
             (pyInt (account_size * (max_risk_percent / 100) / |price - stop_price|)),
         round2 (((min (pyInt (risk_amount / |price - stop_price|))
             (pyInt (account_size * (max_risk_percent / 100) / |price - stop_price|)) : ℤ) : ℚ)
           * |price - stop_price|),
         round2 |price - stop_price|,
         round2 (((min (pyInt (risk_amount / |price - stop_price|))
             (pyInt (account_size * (max_risk_percent / 100) / |price - stop_price|)) : ℤ) : ℚ)
           * price),
         round2 (((min (pyInt (risk_amount / |price - stop_price|))
             (pyInt (account_size * (max_risk_percent / 100) / |price - stop_price|)) : ℤ) : ℚ)
           * |price - stop_price| / account_size * 100),
         round2 (price + |price - stop_price|),
         round2 (price + 2 * |price - stop_price|),
         round2 (price + 3 * |price - stop_price|)⟩ := by
  have h1 : ¬(price ≤ 0 ∨ account_size ≤ 0) := by push_neg; exact ⟨hp, ha⟩
  have h2 : ¬(price ≤ stop_price ∧ stop_price ≠ 0) := by
    rintro ⟨hle, hne⟩
    rcases hs with h | h
    · linarith
    · exact hne h
  have h3 : ¬(|price - stop_price| = 0) := by
    have := risk_per_share_pos hp hs
    linarith
  simp only [calculate_position_size, if_neg h1, if_neg h2, if_neg h3]

/-- Claim C2 (amended): on every validated input, `calculate_position_size`
returns `shares_by_risk` and `max_shares` truncated toward zero (Python
`int()`, which agrees with `floor` for the nonnegative ratios of the
claim), `recommended_shares` their minimum, and `dollar_risk`,
`position_cost`, `account_percent_risked` and `r1`/`r2`/`r3` equal to the
claimed formulas rounded to two decimals; in particular scenario A
(entry 100, stop 95, risk 1000, account 50000, max risk 2.0) returns
exactly the claimed values. -/
theorem calculate_position_size_formulas (price stop_price risk_amount account_size
    max_risk_percent : ℚ) (hp : 0 < price) (ha : 0 < account_size)
    (hs : stop_price < price ∨ stop_price = 0) :
    (∃ res, calculate_position_size price stop_price risk_amount account_size
        max_risk_percent = Except.ok res
      ∧ res.recommended_shares =
          min (pyInt (risk_amount / |price - stop_price|))
              (pyInt (account_size * (max_risk_percent / 100) / |price - stop_price|))
      ∧ res.dollar_risk = round2 ((res.recommended_shares : ℚ) * |price - stop_price|)
      ∧ res.risk_per_share = round2 |price - stop_price|
      ∧ res.position_cost = round2 ((res.recommended_shares : ℚ) * price)
      ∧ res.account_percent_risked
          = round2 ((res.recommended_shares : ℚ) * |price - stop_price| / account_size * 100)
      ∧ res.r1 = round2 (price + |price - stop_price|)
      ∧ res.r2 = round2 (price + 2 * |price - stop_price|)
      ∧ res.r3 = round2 (price + 3 * |price - stop_price|))
    ∧ calculate_position_size 100 95 1000 50000 2
        = Except.ok ⟨200, 1000, 5, 20000, 2, 105, 110, 115⟩ := by
  constructor
  · exact ⟨_, calculate_position_size_ok price stop_price risk_amount account_size
      max_risk_percent hp ha hs, rfl, rfl, rfl, rfl, rfl, rfl, rfl, rfl⟩
  · rw [calculate_position_size_ok 100 95 1000 50000 2 (by norm_num) (by norm_num)
      (Or.inl (by norm_num))]
    norm_num [pyInt, round2, round_eq]

theorem calculate_position_size_formulas_witness :
    ((0:ℚ) < 100 ∧ (0:ℚ) < 50000 ∧ ((95:ℚ) < 100 ∨ (95:ℚ) = 0))
    ∧ calculate_position_size 100 95 1000 50000 2
        = Except.ok ⟨200, 1000, 5, 20000, 2, 105, 110, 115⟩ :=
  ⟨⟨by norm_num, by norm_num, Or.inl (by norm_num)⟩,
   (calculate_position_size_formulas 100 95 1000 50000 2 (by norm_num) (by norm_num)
      (Or.inl (by norm_num))).2⟩

/-- Claim C2 fails as stated: the reported `dollar_risk` is rounded to two
decimals, so at entry 100, stop 99.997, risk 1, account 50000 it is 1.00
while `recommended_shares × risk_per_share = 0.999`; and `shares_by_risk`
is truncated toward zero, not floored: at risk_amount −2.5 the code keeps
0 shares where the claimed floor formula gives −1. -/
theorem calculate_position_size_rounding_cex :
    ((calculate_position_size 100 (99997/1000) 1 50000 2).toOption.map
        (fun r => (r.dollar_risk, (r.recommended_shares : ℚ) * |(100:ℚ) - 99997/1000|))
      = some (1, 999/1000)
      ∧ (1:ℚ) ≠ 999/1000)
    ∧ ((calculate_position_size 100 95 (-5/2) 50000 2).toOption.map
        (fun r => r.recommended_shares) = some 0
      ∧ min ⌊(-5/2 : ℚ) / |(100:ℚ) - 95|⌋ ⌊50000 * ((2:ℚ) / 100) / |(100:ℚ) - 95|⌋ = -1
      ∧ (0:ℤ) ≠ -1) := by
  refine ⟨⟨?_, by norm_num⟩, ⟨?_, ?_, by norm_num⟩⟩
  · simp only [calculate_position_size_ok 100 (99997/1000) 1 50000 2 (by norm_num)
      (by norm_num) (Or.inl (by norm_num)),
      show |(100:ℚ) - 99997/1000| = 3/1000 from by norm_num, Except.toOption]
    norm_num [pyInt, round2, round_eq, min_def]
  · simp only [calculate_position_size_ok 100 95 (-5/2) 50000 2 (by norm_num)
      (by norm_num) (Or.inl (by norm_num)),
      show |(100:ℚ) - (95:ℚ)| = 5 from by norm_num, Except.toOption]
    norm_num [pyInt, round2, round_eq, min_def]
  · simp only [show |(100:ℚ) - (95:ℚ)| = 5 from by norm_num]
    norm_num [min_def]

/-- Claim C5 (amended): calling `calculate_position_size` with entry and
stop both 100 fails, but with the InvalidParameter error whose description
is that for long positions the stop price must be below the entry price
(the `stop_price != 0` validation fires before the zero-risk-per-share
check, which is unreachable for positive prices). -/
theorem calculate_position_size_equal_stop_error (risk_amount account_size
    max_risk_percent : ℚ) (ha : 0 < account_size) :
    calculate_position_size 100 100 risk_amount account_size max_risk_percent
      = Except.error AnalysisError.stopNotBelowEntry := by
  have h1 : ¬((100:ℚ) ≤ 0 ∨ account_size ≤ 0) := by push_neg; exact ⟨by norm_num, ha⟩
  have h2 : (100:ℚ) ≤ 100 ∧ (100:ℚ) ≠ 0 := ⟨le_refl _, by norm_num⟩
  simp only [calculate_position_size, if_neg h1, if_pos h2]

theorem calculate_position_size_equal_stop_error_witness :
    (0:ℚ) < 50000
    ∧ calculate_position_size 100 100 1000 50000 2
        = Except.error AnalysisError.stopNotBelowEntry :=
  ⟨by norm_num, calculate_position_size_equal_stop_error 1000 50000 2 (by norm_num)⟩

/-- Claim C5 fails as stated: at entry 100, stop 100 the raised error is
the long-position message, which is not the zero-risk-per-share message
the claim names. -/
theorem calculate_position_size_equal_stop_message_cex :
    calculate_position_size 100 100 1000 50000 2
      = Except.error AnalysisError.stopNotBelowEntry
    ∧ AnalysisError.stopNotBelowEntry ≠ AnalysisError.zeroRiskPerShare := by
  constructor
  · have h1 : ¬((100:ℚ) ≤ 0 ∨ (50000:ℚ) ≤ 0) := by norm_num
    have h2 : (100:ℚ) ≤ 100 ∧ (100:ℚ) ≠ 0 := ⟨le_refl _, by norm_num⟩
    simp only [calculate_position_size, if_neg h1, if_pos h2]
  · decide

/-- Claim C6 (amended): on every input passing validation, the returned
`recommended_shares` is an integer, and it is nonnegative whenever
`risk_amount ≥ 0` and `max_risk_percent ≥ 0`; for negative `risk_amount`
or `max_risk_percent` (which validation does not reject) it can be
negative. -/
theorem recommended_shares_nonneg (price stop_price risk_amount account_size
    max_risk_percent : ℚ) (hp : 0 < price) (ha : 0 < account_size)
    (hs : stop_price < price ∨ stop_price = 0)
    (hr : 0 ≤ risk_amount) (hm : 0 ≤ max_risk_percent) :
    ∃ res, calculate_position_size price stop_price risk_amount account_size
        max_risk_percent = Except.ok res ∧ 0 ≤ res.recommended_shares := by
  refine ⟨_, calculate_position_size_ok price stop_price risk_amount account_size
    max_risk_percent hp ha hs, ?_⟩
  have hrps := risk_per_share_pos hp hs
  exact le_min (pyInt_nonneg (div_nonneg hr hrps.le))
    (pyInt_nonneg (div_nonneg (mul_nonneg ha.le (div_nonneg hm (by norm_num))) hrps.le))

theorem recommended_shares_nonneg_witness :
    ((0:ℚ) < 100 ∧ (0:ℚ) < 50000 ∧ ((95:ℚ) < 100 ∨ (95:ℚ) = 0)
      ∧ (0:ℚ) ≤ 1000 ∧ (0:ℚ) ≤ 2)
    ∧ ∃ res, calculate_position_size 100 95 1000 50000 2 = Except.ok res
        ∧ 0 ≤ res.recommended_shares :=
  ⟨⟨by norm_num, by norm_num, Or.inl (by norm_num), by norm_num, by norm_num⟩,
   recommended_shares_nonneg 100 95 1000 50000 2 (by norm_num) (by norm_num)
     (Or.inl (by norm_num)) (by norm_num) (by norm_num)⟩

/-- Claim C6 fails as stated: validation does not constrain `risk_amount`,
and at entry 100, stop 95, risk_amount −100, account 50000 the code
returns `recommended_shares = −20 < 0`. -/
theorem recommended_shares_negative_cex :
    (calculate_position_size 100 95 (-100) 50000 2).toOption.map
        (fun r => r.recommended_shares) = some (-20)
    ∧ (-20 : ℤ) < 0 := by
  refine ⟨?_, by norm_num⟩
  simp only [calculate_position_size_ok 100 95 (-100) 50000 2 (by norm_num)
    (by norm_num) (Or.inl (by norm_num)),
    show |(100:ℚ) - (95:ℚ)| = 5 from by norm_num, Except.toOption]
  norm_num [pyInt, min_def]

/-! ### Relative strength (`RelativeStrength.calculate_rs`) -/

/-- One period's worth of entries in the `rs_scores` dict returned by
`calculate_rs`: the values stored under the keys `RS_pd`, `Return_pd`,
`Benchmark_pd` and `Excess_pd`. -/
structure RSEntry where
  period : ℕ
  rs_score : ℚ
  stock_return : ℚ
  benchmark_return : ℚ
  excess : ℚ
deriving DecidableEq

/-- Python negative indexing `series.iloc[-p]` on a list (`-0` is index
`0`, as in Python). -/
def pyNegIdx (l : List ℚ) (p : ℕ) : ℚ :=
  if p = 0 then l.headD 0 else l.getD (l.length - p) 0

/-- Core loop of `RelativeStrength.calculate_rs` (indicators.py lines
92-119), given the two fetched close series.  A period is silently
skipped when either series has length ≤ p; otherwise the four reported
values are computed from `close.iloc[-1]` and `close.iloc[-period]` and
each stored rounded to two decimals. -/
def calculate_rs (stock bench : List ℚ) (lookback_periods : List ℕ) : List RSEntry :=
  lookback_periods.filterMap (fun p =>
    if stock.length ≤ p ∨ bench.length ≤ p then none
    else
      let stock_return := (pyNegIdx stock 1 / pyNegIdx stock p - 1) * 100
      let benchmark_return := (pyNegIdx bench 1 / pyNegIdx bench p - 1) * 100
      let relative_performance := stock_return - benchmark_return
      let rs_score := min (max (50 + relative_performance) 1) 99
      some ⟨p, round2 rs_score, round2 stock_return, round2 benchmark_return,
            round2 relative_performance⟩)

/-- Claim C3 (amended): for every lookback period p ≥ 1, `calculate_rs`
skips p exactly when either series has length ≤ p (silently, no entry for
p appears); every surviving period p reports
`stock_return = (close[-1]/close[-p] − 1) × 100` (note `close[-p]`, i.e.
`p − 1` rows back, not `close[-1-p]`), the same for the benchmark,
`excess = stock_return − benchmark_return` and
`rs_score = clamp(50 + excess, 1, 99)`, each value stored rounded to two
decimals. -/
theorem calculate_rs_periods (stock bench : List ℚ) (lookback_periods : List ℕ)
    (p : ℕ) (hp : p ∈ lookback_periods) (h1 : 1 ≤ p) :
    ((stock.length ≤ p ∨ bench.length ≤ p) →
      ∀ e ∈ calculate_rs stock bench lookback_periods, e.period ≠ p)
    ∧ (p < stock.length → p < bench.length →
      (⟨p,
        round2 (min (max (50 +
            ((stock.getD (stock.length - 1) 0 / stock.getD (stock.length - p) 0 - 1) * 100
              - (bench.getD (bench.length - 1) 0 / bench.getD (bench.length - p) 0 - 1) * 100)) 1) 99),
        round2 ((stock.getD (stock.length - 1) 0 / stock.getD (stock.length - p) 0 - 1) * 100),
        round2 ((bench.getD (bench.length - 1) 0 / bench.getD (bench.length - p) 0 - 1) * 100),
        round2 ((stock.getD (stock.length - 1) 0 / stock.getD (stock.length - p) 0 - 1) * 100
              - (bench.getD (bench.length - 1) 0 / bench.getD (bench.length - p) 0 - 1) * 100)⟩ : RSEntry)
        ∈ calculate_rs stock bench lookback_periods) := by
  constructor
  · intro hshort e he hep
    obtain ⟨q, hq, hfq⟩ := List.mem_filterMap.mp he
    by_cases hqp : stock.length ≤ q ∨ bench.length ≤ q
    · rw [if_pos hqp] at hfq
      exact Option.noConfusion hfq
    · rw [if_neg hqp] at hfq
      have : e.period = q := by
        injection hfq with h
        rw [← h]
      rw [hep] at this
      subst this
      exact hqp hshort
  · intro hst hbe
    refine List.mem_filterMap.mpr ⟨p, hp, ?_⟩
    rw [if_neg (by push_neg; exact ⟨hst, hbe⟩)]
    have hne : p ≠ 0 := by omega
    simp only [pyNegIdx, if_neg hne, if_neg (Nat.one_ne_zero)]

theorem calculate_rs_periods_witness :
    ((2 ∈ [2] ∧ 1 ≤ 2) ∧ 2 < [(100:ℚ),110,121].length ∧ 2 < [(100:ℚ),100,100].length)
    ∧ (⟨2, 60, 10, 0, 10⟩ : RSEntry) ∈ calculate_rs [100,110,121] [100,100,100] [2] := by
  refine ⟨⟨⟨by norm_num, by norm_num⟩, by norm_num, by norm_num⟩, ?_⟩
  have h := (calculate_rs_periods [100,110,121] [100,100,100] [2] 2
    (by norm_num) (by norm_num)).2 (by norm_num) (by norm_num)
  have he : (⟨2,
      round2 (min (max (50 +
          (([(100:ℚ),110,121].getD ([(100:ℚ),110,121].length - 1) 0 / [(100:ℚ),110,121].getD ([(100:ℚ),110,121].length - 2) 0 - 1) * 100
            - ([(100:ℚ),100,100].getD ([(100:ℚ),100,100].length - 1) 0 / [(100:ℚ),100,100].getD ([(100:ℚ),100,100].length - 2) 0 - 1) * 100)) 1) 99),
      round2 (([(100:ℚ),110,121].getD ([(100:ℚ),110,121].length - 1) 0 / [(100:ℚ),110,121].getD ([(100:ℚ),110,121].length - 2) 0 - 1) * 100),
      round2 (([(100:ℚ),100,100].getD ([(100:ℚ),100,100].length - 1) 0 / [(100:ℚ),100,100].getD ([(100:ℚ),100,100].length - 2) 0 - 1) * 100),
      round2 (([(100:ℚ),110,121].getD ([(100:ℚ),110,121].length - 1) 0 / [(100:ℚ),110,121].getD ([(100:ℚ),110,121].length - 2) 0 - 1) * 100
            - ([(100:ℚ),100,100].getD ([(100:ℚ),100,100].length - 1) 0 / [(100:ℚ),100,100].getD ([(100:ℚ),100,100].length - 2) 0 - 1) * 100)⟩ : RSEntry)
      = ⟨2, 60, 10, 0, 10⟩ := by
    norm_num [List.getD, round2, round_eq, min_def, max_def]
  rw [he] at h
  exact h

/-- Claim C3 fails as stated: the code reads `close.iloc[-period]`, not
`close[-1-p]`.  On a stock series [100, 110, 121] with constant benchmark
and period 2, the reported return is 10 (= 121/110 − 1), while the
claimed formula gives 21 (= 121/100 − 1). -/
theorem calculate_rs_index_cex :
    calculate_rs [(100:ℚ),110,121] [100,100,100] [2] = [⟨2, 60, 10, 0, 10⟩]
    ∧ (((121:ℚ) / 100 - 1) * 100 = 21 ∧ (((100:ℚ) / 100 - 1) * 100 = 0)
        ∧ (10:ℚ) - 0 ≠ 21 - 0) := by
  constructor
  · norm_num [calculate_rs, pyNegIdx, List.filterMap_cons, List.getD, round2, round_eq,
      min_def, max_def]
  · norm_num

/-! ### Core indicators (`TechnicalAnalysis.add_core_indicators`, SMA columns) -/

/-- Modelled from the spec: `pandas_ta.sma(close, length=n)` is an
external library call (`ta.sma`, not part of this repository); per the
spec it is the arithmetic mean of the trailing n closes, null for the
first n−1 rows (`rolling(n, min_periods=n).mean()`). -/
def sma (n : ℕ) (closes : List ℚ) : List (Option ℚ) :=
  (List.range closes.length).map (fun i =>
    if i + 1 < n then none
    else some (((closes.drop (i + 1 - n)).take n).sum / n))

/-- The three SMA columns attached by `add_core_indicators`
(indicators.py lines 15-17).  The remaining columns (adrp, avg_20d_vol,
atr, rsi, macd) are independent of the SMA claims and not modelled. -/
structure CoreIndicatorColumns where
  sma_20 : List (Option ℚ)
  sma_50 : List (Option ℚ)
  sma_200 : List (Option ℚ)
deriving DecidableEq

/-- SMA assignments of `TechnicalAnalysis.add_core_indicators`
(indicators.py lines 10-17): each column is `ta.sma` of the close column
with lengths 20, 50 and 200. -/
def add_core_indicators (df : List Candle) : CoreIndicatorColumns :=
  ⟨sma 20 (df.map Candle.close), sma 50 (df.map Candle.close),
   sma 200 (df.map Candle.close)⟩

lemma sma_getD (n : ℕ) (closes : List ℚ) (i : ℕ) (hi : i < closes.length) :
    (sma n closes).getD i none
      = if i + 1 < n then none
        else some (((closes.drop (i + 1 - n)).take n).sum / n) := by
  unfold sma
  rw [List.getD_eq_getElem?_getD, List.getElem?_map, List.getElem?_range hi]
  rfl

/-- Claim C7: for every series of length ≥ 200 and every row i, the
enriched series has `sma_200[i]` null for i < 199 and equal to the mean
of closes [i−199..i] for i ≥ 199; same for `sma_20`/`sma_50` with
windows 20/50. -/
theorem add_core_indicators_sma (df : List Candle) (h : 200 ≤ df.length)
    (i : ℕ) (hi : i < df.length) :
    ((i < 19 → (add_core_indicators df).sma_20.getD i none = none)
      ∧ (19 ≤ i → (add_core_indicators df).sma_20.getD i none
          = some ((((df.map Candle.close).drop (i - 19)).take 20).sum / 20)))
    ∧ ((i < 49 → (add_core_indicators df).sma_50.getD i none = none)
      ∧ (49 ≤ i → (add_core_indicators df).sma_50.getD i none
          = some ((((df.map Candle.close).drop (i - 49)).take 50).sum / 50)))
    ∧ ((i < 199 → (add_core_indicators df).sma_200.getD i none = none)
      ∧ (199 ≤ i → (add_core_indicators df).sma_200.getD i none
          = some ((((df.map Candle.close).drop (i - 199)).take 200).sum / 200))) := by
  have hi' : i < (df.map Candle.close).length := by simpa using hi
  have k20 := sma_getD 20 (df.map Candle.close) i hi'
  have k50 := sma_getD 50 (df.map Candle.close) i hi'
  have k200 := sma_getD 200 (df.map Candle.close) i hi'
  unfold add_core_indicators
  refine ⟨⟨?_, ?_⟩, ⟨?_, ?_⟩, ⟨?_, ?_⟩⟩ <;> intro hb
  · rw [k20, if_pos (by omega)]
  · rw [k20, if_neg (by omega), show i + 1 - 20 = i - 19 by omega]
    norm_num
  · rw [k50, if_pos (by omega)]
  · rw [k50, if_neg (by omega), show i + 1 - 50 = i - 49 by omega]
    norm_num
  · rw [k200, if_pos (by omega)]
  · rw [k200, if_neg (by omega), show i + 1 - 200 = i - 199 by omega]
    norm_num

/-- A 200-row constant series used to witness C7. -/
def c7df : List Candle := List.replicate 200 ⟨0, 6, 4, 5, 1⟩

lemma c7df_length : c7df.length = 200 := List.length_replicate _ _

theorem add_core_indicators_sma_witness :
    (200 ≤ c7df.length ∧ 199 < c7df.length)
    ∧ ((199 < 19 → (add_core_indicators c7df).sma_20.getD 199 none = none)
      ∧ (19 ≤ 199 → (add_core_indicators c7df).sma_20.getD 199 none
          = some ((((c7df.map Candle.close).drop (199 - 19)).take 20).sum / 20)))
    ∧ ((199 < 49 → (add_core_indicators c7df).sma_50.getD 199 none = none)
      ∧ (49 ≤ 199 → (add_core_indicators c7df).sma_50.getD 199 none
          = some ((((c7df.map Candle.close).drop (199 - 49)).take 50).sum / 50)))
    ∧ ((199 < 199 → (add_core_indicators c7df).sma_200.getD 199 none = none)
      ∧ (199 ≤ 199 → (add_core_indicators c7df).sma_200.getD 199 none
          = some ((((c7df.map Candle.close).drop (199 - 199)).take 200).sum / 200))) :=
  ⟨⟨by simp [c7df_length], by simp [c7df_length]⟩,
   add_core_indicators_sma c7df (by simp [c7df_length]) 199 (by simp [c7df_length])⟩

/-! ### Trend status (`TechnicalAnalysis.check_trend_status`) -/

/-- One row of an indicator-enriched frame as read by
`check_trend_status`.  Each cell is `none` when the value is NaN (e.g.
inside an indicator's warm-up window); for the MACD columns, `none` also
covers the column being absent (see `TrendFrame`). -/
structure EnrichedRow where
  close : Option ℚ
  sma_20 : Option ℚ
  sma_50 : Option ℚ
  sma_200 : Option ℚ
  rsi : Option ℚ
  macd : Option ℚ
  macd_signal : Option ℚ
deriving DecidableEq

/-- An enriched frame: its rows plus whether the two MACD columns exist
(`latest.get("MACD_12_26_9", 0)` distinguishes a missing column, which
defaults to 0, from a present-but-NaN cell). -/
structure TrendFrame where
  rows : List EnrichedRow
  has_macd : Bool
  has_macd_signal : Bool

/-- The dict returned by `check_trend_status`. -/
structure TrendStatus where
  above_20sma : Bool
  above_50sma : Bool
  above_200sma : Bool
  sma_20_50_bullish : Bool
  sma_50_200_bullish : Bool
  rsi : Option ℚ
  macd_bullish : Bool
deriving DecidableEq

/-- Pandas `>` on two cells: False whenever either side is NaN. -/
def cellGt : Option ℚ → Option ℚ → Bool
  | some a, some b => decide (b < a)
  | _, _ => false

/-- `row.get(col, 0)`: the cell if the column exists, else 0. -/
def getCell (present : Bool) (v : Option ℚ) : Option ℚ :=
  if present then v else some 0

/-- `TechnicalAnalysis.check_trend_status` (indicators.py lines 39-55):
raises on an empty frame, otherwise computes the seven entries from the
last row. -/
def check_trend_status (f : TrendFrame) : Except AnalysisError TrendStatus :=
  match f.rows.getLast? with
  | none => .error .emptyDataFrame
  | some latest =>
      .ok ⟨cellGt latest.close latest.sma_20,
           cellGt latest.close latest.sma_50,
           cellGt latest.close latest.sma_200,
           cellGt latest.sma_20 latest.sma_50,
           cellGt latest.sma_50 latest.sma_200,
           latest.rsi,
           cellGt (getCell f.has_macd latest.macd)
                  (getCell f.has_macd_signal latest.macd_signal)⟩

lemma cellGt_none_right (x : Option ℚ) : cellGt x none = false := by
  cases x <;> rfl

lemma cellGt_none_left (y : Option ℚ) : cellGt none y = false := rfl

/-- Claim C9: `check_trend_status` fails with the EmptySeries error
exactly when the frame has zero rows; on any non-empty frame it returns
the Trend Status computed from the latest row without raising. -/
theorem check_trend_status_empty (f : TrendFrame) :
    (check_trend_status f = Except.error AnalysisError.emptyDataFrame ↔ f.rows = [])
    ∧ ∀ latest, f.rows.getLast? = some latest →
        check_trend_status f = Except.ok
          ⟨cellGt latest.close latest.sma_20,
           cellGt latest.close latest.sma_50,
           cellGt latest.close latest.sma_200,
           cellGt latest.sma_20 latest.sma_50,
           cellGt latest.sma_50 latest.sma_200,
           latest.rsi,
           cellGt (getCell f.has_macd latest.macd)
                  (getCell f.has_macd_signal latest.macd_signal)⟩ := by
  constructor
  · constructor
    · intro h
      cases hl : f.rows.getLast? with
      | none => exact List.getLast?_eq_none_iff.mp hl
      | some latest =>
        simp only [check_trend_status, hl] at h
        exact Except.noConfusion h
    · intro h
      have hl : f.rows.getLast? = none := List.getLast?_eq_none_iff.mpr h
      simp only [check_trend_status, hl]
  · intro latest hl
    simp only [check_trend_status, hl]

/-- The single-row frame used to witness C9. -/
def c9frame : TrendFrame :=
  ⟨[⟨some 50, some 40, some 30, some 20, some 55, some 2, some 1⟩], true, true⟩

theorem check_trend_status_empty_witness :
    c9frame.rows.getLast?
      = some ⟨some 50, some 40, some 30, some 20, some 55, some 2, some 1⟩
    ∧ check_trend_status c9frame
      = Except.ok ⟨true, true, true, true, true, some 55, true⟩ := by
  refine ⟨rfl, ?_⟩
  have h := (check_trend_status_empty c9frame).2
    ⟨some 50, some 40, some 30, some 20, some 55, some 2, some 1⟩ rfl
  rw [h]
  norm_num [cellGt, getCell, c9frame]

/-- Claim C10: when the latest row's sma_20/sma_50/sma_200 cell is null
(warm-up window not yet filled), `check_trend_status` does not fail and
the boolean flags involving that indicator are False. -/
theorem check_trend_status_null_sma (f : TrendFrame) (latest : EnrichedRow)
    (h : f.rows.getLast? = some latest) :
    ∃ ts, check_trend_status f = Except.ok ts
      ∧ (latest.sma_20 = none →
          ts.above_20sma = false ∧ ts.sma_20_50_bullish = false)
      ∧ (latest.sma_50 = none →
          ts.above_50sma = false ∧ ts.sma_20_50_bullish = false
            ∧ ts.sma_50_200_bullish = false)
      ∧ (latest.sma_200 = none →
          ts.above_200sma = false ∧ ts.sma_50_200_bullish = false) := by
  refine ⟨⟨cellGt latest.close latest.sma_20, cellGt latest.close latest.sma_50,
      cellGt latest.close latest.sma_200, cellGt latest.sma_20 latest.sma_50,
      cellGt latest.sma_50 latest.sma_200, latest.rsi,
      cellGt (getCell f.has_macd latest.macd) (getCell f.has_macd_signal latest.macd_signal)⟩,
    by simp only [check_trend_status, h], ?_, ?_, ?_⟩
  · intro h20
    exact ⟨by simp [h20, cellGt_none_right], by simp [h20, cellGt_none_left]⟩
  · intro h50
    exact ⟨by simp [h50, cellGt_none_right], by simp [h50, cellGt_none_right],
           by simp [h50, cellGt_none_left]⟩
  · intro h200
    exact ⟨by simp [h200, cellGt_none_right], by simp [h200, cellGt_none_right]⟩

/-- The single-row frame (all SMA cells null) used to witness C10. -/
def c10frame : TrendFrame :=
  ⟨[⟨some 50, none, none, none, some 55, none, none⟩], true, true⟩

theorem check_trend_status_null_sma_witness :
    c10frame.rows.getLast? = some ⟨some 50, none, none, none, some 55, none, none⟩
    ∧ ∃ ts, check_trend_status c10frame = Except.ok ts
      ∧ ((⟨some 50, none, none, none, some 55, none, none⟩ : EnrichedRow).sma_20 = none →
          ts.above_20sma = false ∧ ts.sma_20_50_bullish = false)
      ∧ ((⟨some 50, none, none, none, some 55, none, none⟩ : EnrichedRow).sma_50 = none →
          ts.above_50sma = false ∧ ts.sma_20_50_bullish = false
            ∧ ts.sma_50_200_bullish = false)
      ∧ ((⟨some 50, none, none, none, some 55, none, none⟩ : EnrichedRow).sma_200 = none →
          ts.above_200sma = false ∧ ts.sma_50_200_bullish = false) :=
  ⟨rfl, check_trend_status_null_sma c10frame
    ⟨some 50, none, none, none, some 55, none, none⟩ rfl⟩

/-! ### Volume profile (`VolumeProfile.analyze_volume_profile`) -/

/-- One entry of `profile["bins"]`: the stored fields, with prices
rounded to two decimals and the volume truncated by `int()`. -/
structure VPBin where
  price_low : ℚ
  price_high : ℚ
  price_mid : ℚ
  volume : ℤ
  volume_percent : ℚ
deriving DecidableEq

instance : Inhabited VPBin := ⟨⟨0, 0, 0, 0, 0⟩⟩

/-- The profile dict returned by `analyze_volume_profile`. -/
structure VolumeProfileResult where
  price_min : ℚ
  price_max : ℚ
  bin_width : ℚ
  bins : List VPBin
  point_of_control : ℚ
  value_area_low : ℚ
  value_area_high : ℚ
deriving DecidableEq

/-- Python `max(bins, key=lambda x: x["volume"])`: the first bin
attaining the maximal volume (Python `max` keeps the current candidate
unless a strictly greater one appears). -/
def maxByVolFirst (b : VPBin) (l : List VPBin) : VPBin :=
  l.foldl (fun acc c => if acc.volume < c.volume then c else acc) b

/-- One insertion step of a stable sort descending by `volume`: the new
element passes every earlier element with volume ≥ its own. -/
def insertVolDesc (b : VPBin) : List VPBin → List VPBin
  | [] => [b]
  | c :: rest =>
      if c.volume < b.volume then b :: c :: rest else c :: insertVolDesc b rest

/-- Python `sorted(bins, key=lambda x: x["volume"], reverse=True)`:
stable descending sort by volume (elements of equal volume keep their
original order, which insertion in original order preserves). -/
def sortVolDesc (l : List VPBin) : List VPBin :=
  l.foldl (fun acc b => insertVolDesc b acc) []

/-- The value-area loop of `analyze_volume_profile`: append bins in
sorted order, accumulating `volume_percent`, and stop as soon as the
cumulative total reaches 70. -/
def greedyVA : List VPBin → ℚ → List VPBin
  | [], _ => []
  | b :: rest, c =>
      if 70 ≤ c + b.volume_percent then [b]
      else b :: greedyVA rest (c + b.volume_percent)

/-- `price_min = df["low"].min()` of `analyze_volume_profile`. -/
def vpPriceMin (df : List Candle) : ℚ := minD (df.map Candle.low)

/-- `price_max = df["high"].max()` of `analyze_volume_profile`. -/
def vpPriceMax (df : List Candle) : ℚ := maxD (df.map Candle.high)

/-- `bin_width = (price_max - price_min) / num_bins`. -/
def vpWidth (df : List Candle) (num_bins : ℕ) : ℚ :=
  (vpPriceMax df - vpPriceMin df) / num_bins

/-- The `profile["bins"]` list built by the bin loop of
`analyze_volume_profile` (indicators.py lines 160-184): bin i covers
`[price_min + i·w, price_min + (i+1)·w]`, receives the full volume of
every candle whose `[low, high]` range overlaps it, and stores its
percentage of total volume (0 if the total is not positive). -/
def vpBins (df : List Candle) (num_bins : ℕ) : List VPBin :=
  let total_volume := (df.map Candle.volume).sum
  (List.range num_bins).map (fun (i : ℕ) =>
    let bin_low := vpPriceMin df + (i : ℚ) * vpWidth df num_bins
    let bin_high := bin_low + vpWidth df num_bins
    let bin_mid := (bin_low + bin_high) / 2
    let volume_in_bin :=
      ((df.filter (fun c => decide (c.low ≤ bin_high ∧ bin_low ≤ c.high))).map
        Candle.volume).sum
    ⟨round2 bin_low, round2 bin_high, round2 bin_mid, pyInt volume_in_bin,
     round2 (if 0 < total_volume then volume_in_bin / total_volume * 100 else 0)⟩)

/-- `VolumeProfile.analyze_volume_profile` (indicators.py lines 128-214):
length validation, the bin loop (`vpBins`), point of control via
`max(..., key=volume)`, and the value area via the greedy accumulation
over the bins sorted descending by volume.  Python's `max()` raises on
an empty sequence, which happens exactly when `num_bins = 0`; both
value-area bounds are set because the accumulated list is never empty
when the bins list is not. -/
def analyze_volume_profile (df : List Candle) (num_bins : ℕ) :
    Except AnalysisError VolumeProfileResult :=
  if df.length < 20 then .error .notEnoughDataVolumeProfile
  else
    let bins := vpBins df num_bins
    if bins = [] then .error .maxEmptySequence
    else
      let poc_bin := maxByVolFirst (bins.headD default) bins.tail
      let value_area_bins := greedyVA (sortVolDesc bins) 0
      .ok ⟨vpPriceMin df, vpPriceMax df, vpWidth df num_bins, bins,
           round2 poc_bin.price_mid,
           round2 (minD (value_area_bins.map VPBin.price_low)),
           round2 (maxD (value_area_bins.map VPBin.price_high))⟩

/-! #### Facts about `minD` and `maxD` -/

lemma foldl_min_mem (rest : List ℚ) : ∀ a : ℚ,
    rest.foldl min a = a ∨ rest.foldl min a ∈ rest := by
  induction rest with
  | nil => intro a; exact Or.inl rfl
  | cons x xs ih =>
    intro a
    rcases ih (min a x) with h | h
    · rcases min_choice a x with hm | hm
      · rw [List.foldl_cons, h, hm]; exact Or.inl rfl
      · rw [List.foldl_cons, h, hm]; exact Or.inr (List.mem_cons_self x xs)
    · exact Or.inr (List.mem_cons_of_mem x h)

lemma foldl_min_le_init (rest : List ℚ) : ∀ a : ℚ, rest.foldl min a ≤ a := by
  induction rest with
  | nil => intro a; exact le_refl a
  | cons x xs ih =>
    intro a
    exact le_trans (ih (min a x)) (min_le_left a x)

lemma foldl_min_le_mem (rest : List ℚ) : ∀ a x : ℚ, x ∈ rest →
    rest.foldl min a ≤ x := by
  induction rest with
  | nil => intro a x hx; exact absurd hx (List.not_mem_nil x)
  | cons y ys ih =>
    intro a x hx
    rcases List.mem_cons.mp hx with h | h
    · subst h
      exact le_trans (foldl_min_le_init ys (min a x)) (min_le_right a x)
    · exact ih (min a y) x h

lemma minD_mem {l : List ℚ} (h : l ≠ []) : minD l ∈ l := by
  cases l with
  | nil => exact absurd rfl h
  | cons a rest =>
    rcases foldl_min_mem rest a with h2 | h2
    · rw [minD, h2]; exact List.mem_cons_self a rest
    · exact List.mem_cons_of_mem a h2

lemma minD_le {l : List ℚ} {x : ℚ} (hx : x ∈ l) : minD l ≤ x := by
  cases l with
  | nil => exact absurd hx (List.not_mem_nil x)
  | cons a rest =>
    rcases List.mem_cons.mp hx with h | h
    · subst h; exact foldl_min_le_init rest x
    · exact foldl_min_le_mem rest a x h

lemma foldl_max_mem (rest : List ℚ) : ∀ a : ℚ,
    rest.foldl max a = a ∨ rest.foldl max a ∈ rest := by
  induction rest with
  | nil => intro a; exact Or.inl rfl
  | cons x xs ih =>
    intro a
    rcases ih (max a x) with h | h
    · rcases max_choice a x with hm | hm
      · rw [List.foldl_cons, h, hm]; exact Or.inl rfl
      · rw [List.foldl_cons, h, hm]; exact Or.inr (List.mem_cons_self x xs)
    · exact Or.inr (List.mem_cons_of_mem x h)

lemma foldl_max_ge_init (rest : List ℚ) : ∀ a : ℚ, a ≤ rest.foldl max a := by
  induction rest with
  | nil => intro a; exact le_refl a
  | cons x xs ih =>
    intro a
    exact le_trans (le_max_left a x) (ih (max a x))

lemma foldl_max_ge_mem (rest : List ℚ) : ∀ a x : ℚ, x ∈ rest →
    x ≤ rest.foldl max a := by
  induction rest with
  | nil => intro a x hx; exact absurd hx (List.not_mem_nil x)
  | cons y ys ih =>
    intro a x hx
    rcases List.mem_cons.mp hx with h | h
    · subst h
      exact le_trans (le_max_right a x) (foldl_max_ge_init ys (max a x))
    · exact ih (max a y) x h

lemma maxD_mem {l : List ℚ} (h : l ≠ []) : maxD l ∈ l := by
  cases l with
  | nil => exact absurd rfl h
  | cons a rest =>
    rcases foldl_max_mem rest a with h2 | h2
    · rw [maxD, h2]; exact List.mem_cons_self a rest
    · exact List.mem_cons_of_mem a h2

lemma le_maxD {l : List ℚ} {x : ℚ} (hx : x ∈ l) : x ≤ maxD l := by
  cases l with
  | nil => exact absurd hx (List.not_mem_nil x)
  | cons a rest =>
    rcases List.mem_cons.mp hx with h | h
    · subst h; exact foldl_max_ge_init rest x
    · exact foldl_max_ge_mem rest a x h

/-! #### Facts about the stable sort, the first-max, and the greedy loop -/

lemma insertVolDesc_mem (x b : VPBin) (l : List VPBin) :
    x ∈ insertVolDesc b l ↔ x = b ∨ x ∈ l := by
  induction l with
  | nil => simp [insertVolDesc]
  | cons c rest ih =>
    unfold insertVolDesc
    split
    · simp [List.mem_cons]
    · simp only [List.mem_cons, ih]
      tauto

lemma foldl_insert_mem (l : List VPBin) : ∀ (acc : List VPBin) (x : VPBin),
    x ∈ l.foldl (fun acc b => insertVolDesc b acc) acc ↔ x ∈ acc ∨ x ∈ l := by
  induction l with
  | nil => intro acc x; simp
  | cons b rest ih =>
    intro acc x
    rw [List.foldl_cons, ih (insertVolDesc b acc) x, insertVolDesc_mem]
    simp only [List.mem_cons]
    tauto

lemma sortVolDesc_mem (x : VPBin) (l : List VPBin) :
    x ∈ sortVolDesc l ↔ x ∈ l := by
  rw [sortVolDesc, foldl_insert_mem]
  simp

lemma insertVolDesc_ne_nil (b : VPBin) (l : List VPBin) :
    insertVolDesc b l ≠ [] := by
  cases l with
  | nil => simp [insertVolDesc]
  | cons c rest =>
    unfold insertVolDesc
    split <;> simp

lemma insertVolDesc_headD (b : VPBin) (acc : List VPBin) (d : VPBin)
    (h : acc ≠ []) :
    (insertVolDesc b acc).headD d
      = if (acc.headD d).volume < b.volume then b else acc.headD d := by
  cases acc with
  | nil => exact absurd rfl h
  | cons c rest =>
    unfold insertVolDesc
    by_cases hcb : c.volume < b.volume
    · rw [if_pos hcb]
      simp [hcb]
    · rw [if_neg hcb]
      simp [hcb]

lemma foldl_insert_headD (l : List VPBin) : ∀ (acc : List VPBin) (d : VPBin),
    acc ≠ [] →
    (l.foldl (fun acc b => insertVolDesc b acc) acc).headD d
      = l.foldl (fun x c => if x.volume < c.volume then c else x) (acc.headD d) := by
  induction l with
  | nil => intro acc d _; rfl
  | cons b rest ih =>
    intro acc d hacc
    rw [List.foldl_cons, List.foldl_cons,
      ih (insertVolDesc b acc) d (insertVolDesc_ne_nil b acc),
      insertVolDesc_headD b acc d hacc]

lemma sortVolDesc_headD (b0 : VPBin) (rest : List VPBin) (d : VPBin) :
    (sortVolDesc (b0 :: rest)).headD d = maxByVolFirst b0 rest := by
  rw [sortVolDesc, List.foldl_cons]
  have h0 : insertVolDesc b0 ([] : List VPBin) = [b0] := rfl
  rw [h0, foldl_insert_headD rest [b0] d (by simp)]
  rfl

lemma sortVolDesc_ne_nil (b0 : VPBin) (rest : List VPBin) :
    sortVolDesc (b0 :: rest) ≠ [] := by
  intro h
  have : b0 ∈ sortVolDesc (b0 :: rest) :=
    (sortVolDesc_mem b0 (b0 :: rest)).mpr (List.mem_cons_self b0 rest)
  rw [h] at this
  exact List.not_mem_nil b0 this

lemma maxByVolFirst_mem (b : VPBin) (l : List VPBin) :
    maxByVolFirst b l ∈ b :: l := by
  have key : ∀ (l : List VPBin) (b : VPBin),
      l.foldl (fun acc c => if acc.volume < c.volume then c else acc) b = b
        ∨ l.foldl (fun acc c => if acc.volume < c.volume then c else acc) b ∈ l := by
    intro l
    induction l with
    | nil => intro b; exact Or.inl rfl
    | cons c rest ih =>
      intro b
      rw [List.foldl_cons]
      rcases ih (if b.volume < c.volume then c else b) with h | h
      · rw [h]
        split
        · exact Or.inr (List.mem_cons_self c rest)
        · exact Or.inl rfl
      · exact Or.inr (List.mem_cons_of_mem c h)
  rcases key l b with h | h
  · rw [maxByVolFirst, h]; exact List.mem_cons_self b l
  · exact List.mem_cons_of_mem b h

lemma greedyVA_subset : ∀ (l : List VPBin) (c : ℚ), greedyVA l c ⊆ l := by
  intro l
  induction l with
  | nil => intro c; simp [greedyVA]
  | cons b rest ih =>
    intro c
    unfold greedyVA
    split
    · intro x hx
      rw [List.mem_singleton] at hx
      subst hx
      exact List.mem_cons_self _ _
    · exact List.cons_subset_cons b (ih (c + b.volume_percent))

lemma greedyVA_cons (b : VPBin) (rest : List VPBin) (c : ℚ) :
    ∃ t, greedyVA (b :: rest) c = b :: t := by
  unfold greedyVA
  split
  · exact ⟨[], rfl⟩
  · exact ⟨_, rfl⟩

lemma greedyVA_sum_or_all : ∀ (l : List VPBin) (c : ℚ),
    70 ≤ c + ((greedyVA l c).map VPBin.volume_percent).sum ∨ greedyVA l c = l := by
  intro l
  induction l with
  | nil => intro c; exact Or.inr rfl
  | cons b rest ih =>
    intro c
    unfold greedyVA
    split
    · rename_i hbreak
      left
      simpa using hbreak
    · rcases ih (c + b.volume_percent) with h | h
      · left
        simp only [List.map_cons, List.sum_cons]
        linarith
      · right
        rw [h]

lemma greedyVA_dropLast_lt : ∀ (l : List VPBin) (c : ℚ), c < 70 →
    c + (((greedyVA l c).dropLast).map VPBin.volume_percent).sum < 70 := by
  intro l
  induction l with
  | nil => intro c hc; simpa [greedyVA] using hc
  | cons b rest ih =>
    intro c hc
    unfold greedyVA
    split
    · simpa using hc
    · rename_i hbreak
      push_neg at hbreak
      cases hg : greedyVA rest (c + b.volume_percent) with
      | nil => simpa using hc
      | cons x xs =>
        have hstep := ih (c + b.volume_percent) hbreak
        rw [hg] at hstep
        have hdl : ((b :: x :: xs).dropLast) = b :: (x :: xs).dropLast := rfl
        rw [hdl]
        simp only [List.map_cons, List.sum_cons]
        linarith

lemma vpBins_length (df : List Candle) (n : ℕ) : (vpBins df n).length = n := by
  simp [vpBins]

lemma vpBins_shape {df : List Candle} {n : ℕ} {b : VPBin} (hb : b ∈ vpBins df n) :
    ∃ i : ℕ, i < n
      ∧ b.price_low = round2 (vpPriceMin df + i * vpWidth df n)
      ∧ b.price_high = round2 (vpPriceMin df + i * vpWidth df n + vpWidth df n)
      ∧ b.price_mid = round2 ((vpPriceMin df + i * vpWidth df n
          + (vpPriceMin df + i * vpWidth df n + vpWidth df n)) / 2) := by
  simp only [vpBins, List.mem_map, List.mem_range] at hb
  obtain ⟨i, hi, heq⟩ := hb
  exact ⟨i, hi, by rw [← heq], by rw [← heq], by rw [← heq]⟩

lemma vpWidth_nonneg (df : List Candle) (n : ℕ) (hne : df ≠ [])
    (hlh : ∀ c ∈ df, c.low ≤ c.high) : 0 ≤ vpWidth df n := by
  apply div_nonneg _ (Nat.cast_nonneg n)
  rw [sub_nonneg]
  have hmap : df.map Candle.low ≠ [] := by simpa using hne
  obtain ⟨c, hc, hcl⟩ := List.mem_map.mp (minD_mem hmap)
  calc vpPriceMin df = c.low := hcl.symm
    _ ≤ c.high := hlh c hc
    _ ≤ vpPriceMax df := le_maxD (List.mem_map_of_mem Candle.high hc)

lemma vpPriceMin_add_width (df : List Candle) (n : ℕ) (hn : n ≠ 0) :
    vpPriceMin df + n * vpWidth df n = vpPriceMax df := by
  have hq : (n : ℚ) ≠ 0 := Nat.cast_ne_zero.mpr hn
  unfold vpWidth
  field_simp

/-- Claim C1 (amended): for every series of ≥ 20 rows with the OHLC
invariant, positive total volume and num_bins ≥ 1, the profile satisfies
`value_area_low ≤ point_of_control ≤ value_area_high`; the value-area
bounds lie within `[price_min − 0.005, price_max + 0.005]` (the stored
prices are rounded to two decimals, so they can undershoot/overshoot the
exact extremes by up to half a cent); the bins accumulated for the value
area reach cumulative volume_percent ≥ 70 unless the value area already
contains every bin (rounding of the per-bin percentages can leave even
the full set short of 70); and removing the last-added bin always drops
the cumulative percentage below 70. -/
theorem analyze_volume_profile_value_area (df : List Candle) (num_bins : ℕ)
    (h20 : 20 ≤ df.length) (hlh : ∀ c ∈ df, c.low ≤ c.high)
    (hvol : 0 < (df.map Candle.volume).sum) (hnb : 1 ≤ num_bins) :
    ∃ res, analyze_volume_profile df num_bins = Except.ok res
      ∧ res.value_area_low ≤ res.point_of_control
      ∧ res.point_of_control ≤ res.value_area_high
      ∧ res.price_min - 1 / 200 ≤ res.value_area_low
      ∧ res.value_area_high ≤ res.price_max + 1 / 200
      ∧ (70 ≤ ((greedyVA (sortVolDesc res.bins) 0).map VPBin.volume_percent).sum
          ∨ ∀ b ∈ res.bins, b ∈ greedyVA (sortVolDesc res.bins) 0)
      ∧ (((greedyVA (sortVolDesc res.bins) 0).dropLast).map
          VPBin.volume_percent).sum < 70 := by
  have hlen : ¬(df.length < 20) := by omega
  have hbni : vpBins df num_bins ≠ [] := by
    intro h
    have hl := vpBins_length df num_bins
    rw [h] at hl
    simp at hl
    omega
  have hdfne : df ≠ [] := by
    intro h
    rw [h] at h20
    simp at h20
  have hw : 0 ≤ vpWidth df num_bins := vpWidth_nonneg df num_bins hdfne hlh
  obtain ⟨b0, rest, hb⟩ : ∃ b0 rest, vpBins df num_bins = b0 :: rest := by
    cases h : vpBins df num_bins with
    | nil => exact absurd h hbni
    | cons a l => exact ⟨a, l, rfl⟩
  have hok : analyze_volume_profile df num_bins = Except.ok
      ⟨vpPriceMin df, vpPriceMax df, vpWidth df num_bins, vpBins df num_bins,
       round2 (maxByVolFirst ((vpBins df num_bins).headD default)
         (vpBins df num_bins).tail).price_mid,
       round2 (minD ((greedyVA (sortVolDesc (vpBins df num_bins)) 0).map
         VPBin.price_low)),
       round2 (maxD ((greedyVA (sortVolDesc (vpBins df num_bins)) 0).map
         VPBin.price_high))⟩ := by
    simp only [analyze_volume_profile, if_neg hlen, if_neg hbni]
  -- name the point of control and the value-area list
  have hhd : (vpBins df num_bins).headD default = b0 := by rw [hb]; rfl
  have htl : (vpBins df num_bins).tail = rest := by rw [hb]; rfl
  obtain ⟨s0, srest, hsorted⟩ :
      ∃ s0 srest, sortVolDesc (vpBins df num_bins) = s0 :: srest := by
    cases h : sortVolDesc (vpBins df num_bins) with
    | nil => rw [hb] at h; exact absurd h (sortVolDesc_ne_nil b0 rest)
    | cons a l => exact ⟨a, l, rfl⟩
  have hs0 : s0 = maxByVolFirst b0 rest := by
    have := sortVolDesc_headD b0 rest default
    rw [← hb, hsorted] at this
    simpa using this
  obtain ⟨t, hva⟩ := greedyVA_cons s0 srest 0
  have hva' : greedyVA (sortVolDesc (vpBins df num_bins)) 0 = s0 :: t := by
    rw [hsorted, hva]
  have hva_ne : greedyVA (sortVolDesc (vpBins df num_bins)) 0 ≠ [] := by
    rw [hva']
    simp
  have hpoc_va : maxByVolFirst b0 rest ∈ greedyVA (sortVolDesc (vpBins df num_bins)) 0 := by
    rw [hva', ← hs0]
    exact List.mem_cons_self s0 t
  have hva_sub : ∀ x ∈ greedyVA (sortVolDesc (vpBins df num_bins)) 0,
      x ∈ vpBins df num_bins := by
    intro x hx
    exact (sortVolDesc_mem x (vpBins df num_bins)).mp
      (greedyVA_subset (sortVolDesc (vpBins df num_bins)) 0 hx)
  have hpoc_bins : maxByVolFirst b0 rest ∈ vpBins df num_bins := by
    rw [hb]
    exact maxByVolFirst_mem b0 rest
  obtain ⟨ip, hip, hpl, hph, hpm⟩ := vpBins_shape hpoc_bins
  -- the minimum of the value-area price_lows is itself a stored price
  have hmap_ne : (greedyVA (sortVolDesc (vpBins df num_bins)) 0).map VPBin.price_low ≠ [] := by
    simpa using hva_ne
  obtain ⟨bl, hbl_va, hbl_eq⟩ := List.mem_map.mp (minD_mem hmap_ne)
  obtain ⟨il, hil, hll, _, _⟩ := vpBins_shape (hva_sub bl hbl_va)
  have hmaph_ne : (greedyVA (sortVolDesc (vpBins df num_bins)) 0).map VPBin.price_high ≠ [] := by
    simpa using hva_ne
  obtain ⟨bh, hbh_va, hbh_eq⟩ := List.mem_map.mp (maxD_mem hmaph_ne)
  obtain ⟨ih, hih, _, hhh, _⟩ := vpBins_shape (hva_sub bh hbh_va)
  -- rounded value-area bounds equal the unrounded min/max of stored prices
  have hva_low_idem : round2 (minD ((greedyVA (sortVolDesc (vpBins df num_bins)) 0).map
      VPBin.price_low)) = minD ((greedyVA (sortVolDesc (vpBins df num_bins)) 0).map
      VPBin.price_low) := by
    rw [← hbl_eq, hll, round2_idem]
  have hva_high_idem : round2 (maxD ((greedyVA (sortVolDesc (vpBins df num_bins)) 0).map
      VPBin.price_high)) = maxD ((greedyVA (sortVolDesc (vpBins df num_bins)) 0).map
      VPBin.price_high) := by
    rw [← hbh_eq, hhh, round2_idem]
  refine ⟨_, hok, ?_, ?_, ?_, ?_, ?_, ?_⟩
  · -- value_area_low ≤ point_of_control
    show round2 (minD ((greedyVA (sortVolDesc (vpBins df num_bins)) 0).map VPBin.price_low))
      ≤ round2 (maxByVolFirst ((vpBins df num_bins).headD default)
          (vpBins df num_bins).tail).price_mid
    rw [hhd, htl, hva_low_idem, hpm, round2_idem]
    calc minD ((greedyVA (sortVolDesc (vpBins df num_bins)) 0).map VPBin.price_low)
        ≤ (maxByVolFirst b0 rest).price_low :=
          minD_le (List.mem_map_of_mem VPBin.price_low hpoc_va)
      _ = round2 (vpPriceMin df + ip * vpWidth df num_bins) := hpl
      _ ≤ round2 ((vpPriceMin df + ip * vpWidth df num_bins
            + (vpPriceMin df + ip * vpWidth df num_bins + vpWidth df num_bins)) / 2) :=
          round2_mono (by linarith)
  · -- point_of_control ≤ value_area_high
    show round2 (maxByVolFirst ((vpBins df num_bins).headD default)
          (vpBins df num_bins).tail).price_mid
      ≤ round2 (maxD ((greedyVA (sortVolDesc (vpBins df num_bins)) 0).map VPBin.price_high))
    rw [hhd, htl, hva_high_idem, hpm, round2_idem]
    calc round2 ((vpPriceMin df + ip * vpWidth df num_bins
            + (vpPriceMin df + ip * vpWidth df num_bins + vpWidth df num_bins)) / 2)
        ≤ round2 (vpPriceMin df + ip * vpWidth df num_bins + vpWidth df num_bins) :=
          round2_mono (by linarith)
      _ = (maxByVolFirst b0 rest).price_high := hph.symm
      _ ≤ maxD ((greedyVA (sortVolDesc (vpBins df num_bins)) 0).map VPBin.price_high) :=
          le_maxD (List.mem_map_of_mem VPBin.price_high hpoc_va)
  · -- price_min − 1/200 ≤ value_area_low
    show vpPriceMin df - 1 / 200
      ≤ round2 (minD ((greedyVA (sortVolDesc (vpBins df num_bins)) 0).map VPBin.price_low))
    rw [hva_low_idem, ← hbl_eq, hll]
    have h1 : vpPriceMin df ≤ vpPriceMin df + il * vpWidth df num_bins := by
      have : 0 ≤ (il : ℚ) * vpWidth df num_bins :=
        mul_nonneg (Nat.cast_nonneg il) hw
      linarith
    have h2 := sub_le_round2 (vpPriceMin df + il * vpWidth df num_bins)
    linarith
  · -- value_area_high ≤ price_max + 1/200
    show round2 (maxD ((greedyVA (sortVolDesc (vpBins df num_bins)) 0).map VPBin.price_high))
      ≤ vpPriceMax df + 1 / 200
    rw [hva_high_idem, ← hbh_eq, hhh]
    have h1 : vpPriceMin df + ih * vpWidth df num_bins + vpWidth df num_bins
        ≤ vpPriceMax df := by
      have hle : ((ih : ℚ) + 1) * vpWidth df num_bins
          ≤ (num_bins : ℚ) * vpWidth df num_bins := by
        apply mul_le_mul_of_nonneg_right _ hw
        have : (ih : ℚ) + 1 ≤ (num_bins : ℚ) := by exact_mod_cast hih
        exact this
      have heq := vpPriceMin_add_width df num_bins (by omega)
      nlinarith [hle]
    have h2 := round2_le_add (vpPriceMin df + ih * vpWidth df num_bins + vpWidth df num_bins)
    linarith
  · -- cumulative ≥ 70 unless the value area is all bins
    show 70 ≤ ((greedyVA (sortVolDesc (vpBins df num_bins)) 0).map VPBin.volume_percent).sum
      ∨ ∀ b ∈ vpBins df num_bins, b ∈ greedyVA (sortVolDesc (vpBins df num_bins)) 0
    rcases greedyVA_sum_or_all (sortVolDesc (vpBins df num_bins)) 0 with h | h
    · left
      linarith
    · right
      intro b hbB
      rw [h]
      exact (sortVolDesc_mem b (vpBins df num_bins)).mpr hbB
  · -- minimality: dropping the last-added bin stays below 70
    show (((greedyVA (sortVolDesc (vpBins df num_bins)) 0).dropLast).map
      VPBin.volume_percent).sum < 70
    have := greedyVA_dropLast_lt (sortVolDesc (vpBins df num_bins)) 0 (by norm_num)
    linarith

/-- A 20-row series whose price extremes are not two-decimal values:
every candle has low 10.004 and high 11.004. -/
def c1df : List Candle := List.replicate 20 ⟨0, 11 + 1/250, 10 + 1/250, 21/2, 1⟩

/-- Claim C1 fails as stated: the stored value-area bounds are rounded to
two decimals, so on `c1df` (price_min = 10.004) with one bin the profile
has value_area_low = 10.00 < price_min, outside `[price_min, price_max]`. -/
theorem analyze_volume_profile_bounds_cex :
    (analyze_volume_profile c1df 1).toOption.map
        (fun r => (r.value_area_low, r.price_min)) = some (10, 10 + 1/250)
    ∧ (10 : ℚ) < 10 + 1/250 := by
  constructor
  · norm_num [analyze_volume_profile, vpBins, vpPriceMin, vpPriceMax, vpWidth,
      minD, maxD, c1df, List.replicate, sortVolDesc, insertVolDesc, greedyVA,
      maxByVolFirst, round2, round_eq, pyInt, Except.toOption, min_def, max_def]
  · norm_num

/-- A plain 20-row series with two-decimal prices used to witness C1. -/
def c1wdf : List Candle := List.replicate 20 ⟨0, 11, 10, 21/2, 1⟩

theorem analyze_volume_profile_value_area_witness :
    (20 ≤ c1wdf.length ∧ (∀ c ∈ c1wdf, c.low ≤ c.high)
      ∧ 0 < (c1wdf.map Candle.volume).sum ∧ 1 ≤ 10)
    ∧ ∃ res, analyze_volume_profile c1wdf 10 = Except.ok res
      ∧ res.value_area_low ≤ res.point_of_control
      ∧ res.point_of_control ≤ res.value_area_high
      ∧ res.price_min - 1 / 200 ≤ res.value_area_low
      ∧ res.value_area_high ≤ res.price_max + 1 / 200
      ∧ (70 ≤ ((greedyVA (sortVolDesc res.bins) 0).map VPBin.volume_percent).sum
          ∨ ∀ b ∈ res.bins, b ∈ greedyVA (sortVolDesc res.bins) 0)
      ∧ (((greedyVA (sortVolDesc res.bins) 0).dropLast).map
          VPBin.volume_percent).sum < 70 :=
  ⟨⟨by simp [c1wdf], by intro c hc; rw [List.eq_of_mem_replicate hc]; norm_num,
    by simp [c1wdf, List.map_replicate]; norm_num, by norm_num⟩,
   analyze_volume_profile_value_area c1wdf 10 (by simp [c1wdf])
     (by intro c hc; rw [List.eq_of_mem_replicate hc]; norm_num)
     (by simp [c1wdf, List.map_replicate]; norm_num) (by norm_num)⟩

/-! ### Pattern detection (`PatternRecognition.detect_patterns`) -/

/-- `pattern["type"]` values. -/
inductive PatternType where
  | doubleBottom
  | doubleTop
  | resistanceBreakout
  | supportBreakdown
deriving DecidableEq

/-- `pattern["confidence"]` values (every emitted record says "Medium"). -/
inductive Confidence where
  | medium
deriving DecidableEq

/-- One record of the `patterns` list; breakout records carry no dates. -/
structure PatternRecord where
  ptype : PatternType
  start_date : Option ℤ
  end_date : Option ℤ
  price_level : ℚ
  confidence : Confidence
deriving DecidableEq

/-- The centered 5-row rolling minimum of `low` at position k
(`recent_df["low"].rolling(window=5, center=True).min()`). -/
def win5min (recent : List Candle) (k : ℕ) : ℚ :=
  min (min (min (min ((recent.getD (k - 2) default).low)
    ((recent.getD (k - 1) default).low)) ((recent.getD k default).low))
    ((recent.getD (k + 1) default).low)) ((recent.getD (k + 2) default).low)

/-- The centered 5-row rolling maximum of `high` at position k. -/
def win5max (recent : List Candle) (k : ℕ) : ℚ :=
  max (max (max (max ((recent.getD (k - 2) default).high)
    ((recent.getD (k - 1) default).high)) ((recent.getD k default).high))
    ((recent.getD (k + 1) default).high)) ((recent.getD (k + 2) default).high)

/-- Row k is a local minimum: the centered rolling min equals its own
`low`.  The first and last two positions have no full window (pandas
yields NaN there, and `NaN == x` is False). -/
def isMinAt (recent : List Candle) (k : ℕ) : Bool :=
  decide (2 ≤ k) && decide (k + 2 < recent.length)
    && decide (win5min recent k = (recent.getD k default).low)

/-- Row k is a local maximum (mirror of `isMinAt` on `high`). -/
def isMaxAt (recent : List Candle) (k : ℕ) : Bool :=
  decide (2 ≤ k) && decide (k + 2 < recent.length)
    && decide (win5max recent k = (recent.getD k default).high)

/-- `minima = recent_df[recent_df["is_min"]]`: the rows flagged as local
minima, in order. -/
def minimaOf (recent : List Candle) : List Candle :=
  ((List.range recent.length).filter (fun k => isMinAt recent k)).map
    (fun k => recent.getD k default)

/-- `maxima = recent_df[recent_df["is_max"]]`. -/
def maximaOf (recent : List Candle) : List Candle :=
  ((List.range recent.length).filter (fun k => isMaxAt recent k)).map
    (fun k => recent.getD k default)

/-- The double-bottom test for one ordered pair of minima (indicators.py
lines 261-277): similar lows (within 3% of the first), dates 10-60 days
apart, and an intervening row strictly between the two dates whose
maximal `high` exceeds 1.05 × the first low (`mask.any()` plus the
comparison on `max_between`). -/
def dbCond (recent : List Candle) (m1 m2 : Candle) : Prop :=
  |m1.low - m2.low| / m1.low < 3/100
  ∧ 10 ≤ m2.date - m1.date ∧ m2.date - m1.date ≤ 60
  ∧ recent.filter (fun c => decide (m1.date < c.date ∧ c.date < m2.date)) ≠ []
  ∧ m1.low * (105/100)
      < maxD ((recent.filter (fun c => decide (m1.date < c.date ∧ c.date < m2.date))).map
          Candle.high)

instance (recent : List Candle) (m1 m2 : Candle) : Decidable (dbCond recent m1 m2) := by
  unfold dbCond
  infer_instance

/-- The emitted double-bottom record: mean of the two lows, rounded. -/
def dbRecord (m1 m2 : Candle) : PatternRecord :=
  ⟨.doubleBottom, some m1.date, some m2.date, round2 ((m1.low + m2.low) / 2), .medium⟩

/-- The double-top test (indicators.py lines 296-309): mirror of
`dbCond` on highs, requiring an intervening minimal `low` below 0.95 ×
the first high. -/
def dtCond (recent : List Candle) (m1 m2 : Candle) : Prop :=
  |m1.high - m2.high| / m1.high < 3/100
  ∧ 10 ≤ m2.date - m1.date ∧ m2.date - m1.date ≤ 60
  ∧ recent.filter (fun c => decide (m1.date < c.date ∧ c.date < m2.date)) ≠ []
  ∧ minD ((recent.filter (fun c => decide (m1.date < c.date ∧ c.date < m2.date))).map
        Candle.low)
      < m1.high * (95/100)

instance (recent : List Candle) (m1 m2 : Candle) : Decidable (dtCond recent m1 m2) := by
  unfold dtCond
  infer_instance

/-- The emitted double-top record. -/
def dtRecord (m1 m2 : Candle) : PatternRecord :=
  ⟨.doubleTop, some m1.date, some m2.date, round2 ((m1.high + m2.high) / 2), .medium⟩

/-- The nested `for i / for j in range(i+1, ...)` scan: every ordered
pair (earlier, later) of the list is offered to `f`. -/
def pairScan (f : Candle → Candle → Option PatternRecord) :
    List Candle → List PatternRecord
  | [] => []
  | a :: rest => rest.filterMap (f a) ++ pairScan f rest

/-- `PatternRecognition.detect_patterns` (indicators.py lines 220-352).
Returns the pattern list and the Python dict's "message" presence flag
(true exactly when fewer than 60 rows).  Extrema are detected on the
trailing 60 rows; the breakout checks use the latest close against the
extremes of the trailing 20 rows of the full frame, with strict
comparisons on both sides. -/
def detect_patterns (df : List Candle) : List PatternRecord × Bool :=
  if df.length < 60 then ([], true)
  else
    let recent := df.drop (df.length - 60)
    let bottoms := pairScan (fun m1 m2 =>
      if dbCond recent m1 m2 then some (dbRecord m1 m2) else none) (minimaOf recent)
    let tops := pairScan (fun m1 m2 =>
      if dtCond recent m1 m2 then some (dtRecord m1 m2) else none) (maximaOf recent)
    let close := (df.getLastD default).close
    let recent_high := maxD ((df.drop (df.length - 20)).map Candle.high)
    let recent_low := minD ((df.drop (df.length - 20)).map Candle.low)
    let breakouts :=
      (if recent_high * (99/100) < close ∧ close < recent_high * (102/100)
       then [(⟨.resistanceBreakout, none, none, round2 recent_high, .medium⟩ :
          PatternRecord)]
       else [])
      ++ (if close < recent_low * (101/100) ∧ recent_low * (98/100) < close
          then [(⟨.supportBreakdown, none, none, round2 recent_low, .medium⟩ :
             PatternRecord)]
          else [])
    (bottoms ++ tops ++ breakouts, false)

lemma pair_sublist_cons {α : Type} (m1 m2 a : α) (l : List α) :
    ([m1, m2] : List α).Sublist (a :: l)
      ↔ (m1 = a ∧ m2 ∈ l) ∨ ([m1, m2] : List α).Sublist l := by
  constructor
  · intro h
    cases h with
    | cons _ h' => exact Or.inr h'
    | cons₂ _ h' => exact Or.inl ⟨rfl, List.singleton_sublist.mp h'⟩
  · rintro (⟨rfl, hm⟩ | h)
    · exact (List.singleton_sublist.mpr hm).cons₂ m1
    · exact h.cons a

lemma pairScan_mem (f : Candle → Candle → Option PatternRecord)
    (l : List Candle) (r : PatternRecord) :
    r ∈ pairScan f l
      ↔ ∃ m1 m2, ([m1, m2] : List Candle).Sublist l ∧ f m1 m2 = some r := by
  induction l with
  | nil =>
    simp only [pairScan, List.not_mem_nil, false_iff]
    rintro ⟨m1, m2, hs, _⟩
    exact absurd (hs.length_le) (by simp)
  | cons a rest ih =>
    simp only [pairScan, List.mem_append, List.mem_filterMap, ih]
    constructor
    · rintro (⟨m2, hm2, hf⟩ | ⟨m1, m2, hs, hf⟩)
      · exact ⟨a, m2, (pair_sublist_cons a m2 a rest).mpr (Or.inl ⟨rfl, hm2⟩), hf⟩
      · exact ⟨m1, m2, (pair_sublist_cons m1 m2 a rest).mpr (Or.inr hs), hf⟩
    · rintro ⟨m1, m2, hs, hf⟩
      rcases (pair_sublist_cons m1 m2 a rest).mp hs with ⟨rfl, hm2⟩ | hs'
      · exact Or.inl ⟨m2, hm2, hf⟩
      · exact Or.inr ⟨m1, m2, hs', hf⟩

lemma pairScan_if_mem (cond : Candle → Candle → Prop)
    [inst : ∀ m1 m2, Decidable (cond m1 m2)]
    (mk : Candle → Candle → PatternRecord) (l : List Candle) (r : PatternRecord) :
    r ∈ pairScan (fun m1 m2 => if cond m1 m2 then some (mk m1 m2) else none) l
      ↔ ∃ m1 m2, ([m1, m2] : List Candle).Sublist l ∧ cond m1 m2 ∧ r = mk m1 m2 := by
  rw [pairScan_mem]
  constructor
  · rintro ⟨m1, m2, hs, hf⟩
    by_cases h : cond m1 m2
    · rw [if_pos h] at hf
      injection hf with h2
      exact ⟨m1, m2, hs, h, h2.symm⟩
    · rw [if_neg h] at hf
      exact Option.noConfusion hf
  · rintro ⟨m1, m2, hs, hc, rfl⟩
    exact ⟨m1, m2, hs, if_pos hc⟩

/-- Claim C4 (amended): for every series of ≥ 60 rows, a Resistance
Breakout record (price_level = the 20-day high rounded to two decimals)
is emitted exactly when the latest close lies strictly inside
`(0.99, 1.02) × recent_20day_high` — the interval endpoints are
excluded, since both comparisons in the source are strict; the Support
Breakdown mirror uses the strict interval `(0.98, 1.01) × recent_20day_low`. -/
theorem detect_patterns_breakouts (df : List Candle) (h60 : 60 ≤ df.length) :
    ((∃ r ∈ (detect_patterns df).1, r.ptype = PatternType.resistanceBreakout)
      ↔ (maxD ((df.drop (df.length - 20)).map Candle.high) * (99/100)
            < (df.getLastD default).close
          ∧ (df.getLastD default).close
            < maxD ((df.drop (df.length - 20)).map Candle.high) * (102/100)))
    ∧ (∀ r ∈ (detect_patterns df).1, r.ptype = PatternType.resistanceBreakout →
        r = ⟨PatternType.resistanceBreakout, none, none,
             round2 (maxD ((df.drop (df.length - 20)).map Candle.high)),
             Confidence.medium⟩)
    ∧ ((∃ r ∈ (detect_patterns df).1, r.ptype = PatternType.supportBreakdown)
      ↔ ((df.getLastD default).close
            < minD ((df.drop (df.length - 20)).map Candle.low) * (101/100)
          ∧ minD ((df.drop (df.length - 20)).map Candle.low) * (98/100)
            < (df.getLastD default).close))
    ∧ (∀ r ∈ (detect_patterns df).1, r.ptype = PatternType.supportBreakdown →
        r = ⟨PatternType.supportBreakdown, none, none,
             round2 (minD ((df.drop (df.length - 20)).map Candle.low)),
             Confidence.medium⟩) := by
  have hlen : ¬(df.length < 60) := by omega
  have hsplit : (detect_patterns df).1 =
      pairScan (fun m1 m2 =>
        if dbCond (df.drop (df.length - 60)) m1 m2
        then some (dbRecord m1 m2) else none) (minimaOf (df.drop (df.length - 60)))
      ++ pairScan (fun m1 m2 =>
        if dtCond (df.drop (df.length - 60)) m1 m2
        then some (dtRecord m1 m2) else none) (maximaOf (df.drop (df.length - 60)))
      ++ ((if maxD ((df.drop (df.length - 20)).map Candle.high) * (99/100)
              < (df.getLastD default).close
            ∧ (df.getLastD default).close
              < maxD ((df.drop (df.length - 20)).map Candle.high) * (102/100)
          then [(⟨.resistanceBreakout, none, none,
                 round2 (maxD ((df.drop (df.length - 20)).map Candle.high)),
                 .medium⟩ : PatternRecord)]
          else [])
        ++ (if (df.getLastD default).close
              < minD ((df.drop (df.length - 20)).map Candle.low) * (101/100)
            ∧ minD ((df.drop (df.length - 20)).map Candle.low) * (98/100)
              < (df.getLastD default).close
            then [(⟨.supportBreakdown, none, none,
                   round2 (minD ((df.drop (df.length - 20)).map Candle.low)),
                   .medium⟩ : PatternRecord)]
            else [])) := by
    simp only [detect_patterns, if_neg hlen]
  -- a record's type decides which of the three segments it came from
  have hcase : ∀ r ∈ (detect_patterns df).1,
      (∃ m1 m2, r = dbRecord m1 m2)
      ∨ (∃ m1 m2, r = dtRecord m1 m2)
      ∨ ((maxD ((df.drop (df.length - 20)).map Candle.high) * (99/100)
            < (df.getLastD default).close
          ∧ (df.getLastD default).close
            < maxD ((df.drop (df.length - 20)).map Candle.high) * (102/100))
         ∧ r = ⟨PatternType.resistanceBreakout, none, none,
             round2 (maxD ((df.drop (df.length - 20)).map Candle.high)),
             Confidence.medium⟩)
      ∨ (((df.getLastD default).close
            < minD ((df.drop (df.length - 20)).map Candle.low) * (101/100)
          ∧ minD ((df.drop (df.length - 20)).map Candle.low) * (98/100)
            < (df.getLastD default).close)
         ∧ r = ⟨PatternType.supportBreakdown, none, none,
             round2 (minD ((df.drop (df.length - 20)).map Candle.low)),
             Confidence.medium⟩) := by
    intro r hr
    rw [hsplit] at hr
    rcases List.mem_append.mp hr with hr1 | hr2
    · rcases List.mem_append.mp hr1 with hrb | hrt
      · obtain ⟨m1, m2, _, _, hre⟩ := (pairScan_if_mem _ _ _ _).mp hrb
        exact Or.inl ⟨m1, m2, hre⟩
      · obtain ⟨m1, m2, _, _, hre⟩ := (pairScan_if_mem _ _ _ _).mp hrt
        exact Or.inr (Or.inl ⟨m1, m2, hre⟩)
    · rcases List.mem_append.mp hr2 with hrr | hrs
      · by_cases hc : maxD ((df.drop (df.length - 20)).map Candle.high) * (99/100)
              < (df.getLastD default).close
            ∧ (df.getLastD default).close
              < maxD ((df.drop (df.length - 20)).map Candle.high) * (102/100)
        · rw [if_pos hc] at hrr
          rcases List.mem_singleton.mp hrr with rfl
          exact Or.inr (Or.inr (Or.inl ⟨hc, rfl⟩))
        · rw [if_neg hc] at hrr
          exact absurd hrr (List.not_mem_nil r)
      · by_cases hc : (df.getLastD default).close
              < minD ((df.drop (df.length - 20)).map Candle.low) * (101/100)
            ∧ minD ((df.drop (df.length - 20)).map Candle.low) * (98/100)
              < (df.getLastD default).close
        · rw [if_pos hc] at hrs
          rcases List.mem_singleton.mp hrs with rfl
          exact Or.inr (Or.inr (Or.inr ⟨hc, rfl⟩))
        · rw [if_neg hc] at hrs
          exact absurd hrs (List.not_mem_nil r)
  refine ⟨⟨?_, ?_⟩, ?_, ⟨?_, ?_⟩, ?_⟩
  · rintro ⟨r, hr, hrt⟩
    rcases hcase r hr with ⟨m1, m2, rfl⟩ | ⟨m1, m2, rfl⟩ | ⟨hc, rfl⟩ | ⟨hc, rfl⟩
    · exact absurd hrt (by simp [dbRecord])
    · exact absurd hrt (by simp [dtRecord])
    · exact hc
    · exact absurd hrt (by simp)
  · intro hc
    refine ⟨⟨PatternType.resistanceBreakout, none, none,
      round2 (maxD ((df.drop (df.length - 20)).map Candle.high)),
      Confidence.medium⟩, ?_, rfl⟩
    rw [hsplit]
    refine List.mem_append.mpr (Or.inr (List.mem_append.mpr (Or.inl ?_)))
    rw [if_pos hc]
    exact List.mem_singleton.mpr rfl
  · intro r hr hrt
    rcases hcase r hr with ⟨m1, m2, rfl⟩ | ⟨m1, m2, rfl⟩ | ⟨hc, rfl⟩ | ⟨hc, rfl⟩
    · exact absurd hrt (by simp [dbRecord])
    · exact absurd hrt (by simp [dtRecord])
    · rfl
    · exact absurd hrt (by simp)
  · rintro ⟨r, hr, hrt⟩
    rcases hcase r hr with ⟨m1, m2, rfl⟩ | ⟨m1, m2, rfl⟩ | ⟨hc, rfl⟩ | ⟨hc, rfl⟩
    · exact absurd hrt (by simp [dbRecord])
    · exact absurd hrt (by simp [dtRecord])
    · exact absurd hrt (by simp)
    · exact hc
  · intro hc
    refine ⟨⟨PatternType.supportBreakdown, none, none,
      round2 (minD ((df.drop (df.length - 20)).map Candle.low)),
      Confidence.medium⟩, ?_, rfl⟩
    rw [hsplit]
    refine List.mem_append.mpr (Or.inr (List.mem_append.mpr (Or.inr ?_)))
    rw [if_pos hc]
    exact List.mem_singleton.mpr rfl
  · intro r hr hrt
    rcases hcase r hr with ⟨m1, m2, rfl⟩ | ⟨m1, m2, rfl⟩ | ⟨hc, rfl⟩ | ⟨hc, rfl⟩
    · exact absurd hrt (by simp [dbRecord])
    · exact absurd hrt (by simp [dtRecord])
    · exact absurd hrt (by simp)
    · rfl

/-- 60 rows with strictly increasing integer lows/highs; the last close
equals exactly 0.99 × the 20-day high (= 1000). -/
def c4cexdf1 : List Candle :=
  [ ⟨0, 50, 40, 45, 1⟩, ⟨1, 51, 41, 45, 1⟩, ⟨2, 52, 42, 45, 1⟩, ⟨3, 53, 43, 45, 1⟩,
   ⟨4, 54, 44, 45, 1⟩, ⟨5, 55, 45, 45, 1⟩, ⟨6, 56, 46, 45, 1⟩, ⟨7, 57, 47, 45, 1⟩,
   ⟨8, 58, 48, 45, 1⟩, ⟨9, 59, 49, 45, 1⟩, ⟨10, 60, 50, 45, 1⟩, ⟨11, 61, 51, 45, 1⟩,
   ⟨12, 62, 52, 45, 1⟩, ⟨13, 63, 53, 45, 1⟩, ⟨14, 64, 54, 45, 1⟩, ⟨15, 65, 55, 45, 1⟩,
   ⟨16, 66, 56, 45, 1⟩, ⟨17, 67, 57, 45, 1⟩, ⟨18, 68, 58, 45, 1⟩, ⟨19, 69, 59, 45, 1⟩,
   ⟨20, 70, 60, 45, 1⟩, ⟨21, 71, 61, 45, 1⟩, ⟨22, 72, 62, 45, 1⟩, ⟨23, 73, 63, 45, 1⟩,
   ⟨24, 74, 64, 45, 1⟩, ⟨25, 75, 65, 45, 1⟩, ⟨26, 76, 66, 45, 1⟩, ⟨27, 77, 67, 45, 1⟩,
   ⟨28, 78, 68, 45, 1⟩, ⟨29, 79, 69, 45, 1⟩, ⟨30, 80, 70, 45, 1⟩, ⟨31, 81, 71, 45, 1⟩,
   ⟨32, 82, 72, 45, 1⟩, ⟨33, 83, 73, 45, 1⟩, ⟨34, 84, 74, 45, 1⟩, ⟨35, 85, 75, 45, 1⟩,
   ⟨36, 86, 76, 45, 1⟩, ⟨37, 87, 77, 45, 1⟩, ⟨38, 88, 78, 45, 1⟩, ⟨39, 89, 79, 45, 1⟩,
   ⟨40, 90, 80, 45, 1⟩, ⟨41, 91, 81, 45, 1⟩, ⟨42, 92, 82, 45, 1⟩, ⟨43, 93, 83, 45, 1⟩,
   ⟨44, 94, 84, 45, 1⟩, ⟨45, 95, 85, 45, 1⟩, ⟨46, 96, 86, 45, 1⟩, ⟨47, 97, 87, 45, 1⟩,
   ⟨48, 98, 88, 45, 1⟩, ⟨49, 99, 89, 45, 1⟩, ⟨50, 100, 90, 45, 1⟩, ⟨51, 101, 91, 45, 1⟩,
   ⟨52, 102, 92, 45, 1⟩, ⟨53, 103, 93, 45, 1⟩, ⟨54, 104, 94, 45, 1⟩, ⟨55, 105, 95, 45, 1⟩,
   ⟨56, 106, 96, 45, 1⟩, ⟨57, 107, 97, 45, 1⟩, ⟨58, 108, 98, 45, 1⟩, ⟨59, 1000, 200, 990, 1⟩]

/-- The rational 1000.004 = 250001/250, given in normalized constructor
form so that comparisons against it evaluate by `decide`. -/
def q1000004 : ℚ := ⟨250001, 250, by decide, by decide⟩

/-- Same shape, but the 20-day high is 1000.004 (not a two-decimal
value) and the last close lies strictly inside the breakout interval. -/
def c4cexdf2 : List Candle :=
  [ ⟨0, 50, 40, 45, 1⟩, ⟨1, 51, 41, 45, 1⟩, ⟨2, 52, 42, 45, 1⟩, ⟨3, 53, 43, 45, 1⟩,
   ⟨4, 54, 44, 45, 1⟩, ⟨5, 55, 45, 45, 1⟩, ⟨6, 56, 46, 45, 1⟩, ⟨7, 57, 47, 45, 1⟩,
   ⟨8, 58, 48, 45, 1⟩, ⟨9, 59, 49, 45, 1⟩, ⟨10, 60, 50, 45, 1⟩, ⟨11, 61, 51, 45, 1⟩,
   ⟨12, 62, 52, 45, 1⟩, ⟨13, 63, 53, 45, 1⟩, ⟨14, 64, 54, 45, 1⟩, ⟨15, 65, 55, 45, 1⟩,
   ⟨16, 66, 56, 45, 1⟩, ⟨17, 67, 57, 45, 1⟩, ⟨18, 68, 58, 45, 1⟩, ⟨19, 69, 59, 45, 1⟩,
   ⟨20, 70, 60, 45, 1⟩, ⟨21, 71, 61, 45, 1⟩, ⟨22, 72, 62, 45, 1⟩, ⟨23, 73, 63, 45, 1⟩,
   ⟨24, 74, 64, 45, 1⟩, ⟨25, 75, 65, 45, 1⟩, ⟨26, 76, 66, 45, 1⟩, ⟨27, 77, 67, 45, 1⟩,
   ⟨28, 78, 68, 45, 1⟩, ⟨29, 79, 69, 45, 1⟩, ⟨30, 80, 70, 45, 1⟩, ⟨31, 81, 71, 45, 1⟩,
   ⟨32, 82, 72, 45, 1⟩, ⟨33, 83, 73, 45, 1⟩, ⟨34, 84, 74, 45, 1⟩, ⟨35, 85, 75, 45, 1⟩,
   ⟨36, 86, 76, 45, 1⟩, ⟨37, 87, 77, 45, 1⟩, ⟨38, 88, 78, 45, 1⟩, ⟨39, 89, 79, 45, 1⟩,
   ⟨40, 90, 80, 45, 1⟩, ⟨41, 91, 81, 45, 1⟩, ⟨42, 92, 82, 45, 1⟩, ⟨43, 93, 83, 45, 1⟩,
   ⟨44, 94, 84, 45, 1⟩, ⟨45, 95, 85, 45, 1⟩, ⟨46, 96, 86, 45, 1⟩, ⟨47, 97, 87, 45, 1⟩,
   ⟨48, 98, 88, 45, 1⟩, ⟨49, 99, 89, 45, 1⟩, ⟨50, 100, 90, 45, 1⟩, ⟨51, 101, 91, 45, 1⟩,
   ⟨52, 102, 92, 45, 1⟩, ⟨53, 103, 93, 45, 1⟩, ⟨54, 104, 94, 45, 1⟩, ⟨55, 105, 95, 45, 1⟩,
   ⟨56, 106, 96, 45, 1⟩, ⟨57, 107, 97, 45, 1⟩, ⟨58, 108, 98, 45, 1⟩,
   ⟨59, q1000004, 200, 1005, 1⟩]

lemma q1000004_eq : q1000004 = (250001 : ℚ) / 250 := by
  rw [← Rat.num_div_den q1000004]
  norm_num [show q1000004.num = 250001 from rfl, show q1000004.den = 250 from rfl]

set_option maxRecDepth 8000 in
/-- Claim C4 fails as stated: the code compares strictly on both sides,
so a close exactly at `0.99 × recent_high` (c4cexdf1: close 990, high
1000) emits no Resistance Breakout although the claimed closed interval
contains it; and the emitted record's price_level is the 20-day high
rounded to two decimals, which at high 1000.004 (c4cexdf2) differs from
the exact high. -/
theorem detect_patterns_breakout_boundary_cex :
    ((c4cexdf1.getLastD default).close
        = maxD ((c4cexdf1.drop (c4cexdf1.length - 20)).map Candle.high) * (99/100)
      ∧ ¬ ∃ r ∈ (detect_patterns c4cexdf1).1,
          r.ptype = PatternType.resistanceBreakout)
    ∧ (∃ r ∈ (detect_patterns c4cexdf2).1,
        r.ptype = PatternType.resistanceBreakout
          ∧ r.price_level
              ≠ maxD ((c4cexdf2.drop (c4cexdf2.length - 20)).map Candle.high)) := by
  have e1min : minimaOf c4cexdf1 = [] := by decide
  have e1max : maximaOf c4cexdf1 = [] := by decide
  have e1drop : c4cexdf1.drop (c4cexdf1.length - 60) = c4cexdf1 := by decide
  have e1H : maxD ((c4cexdf1.drop (c4cexdf1.length - 20)).map Candle.high) = 1000 := by
    decide
  have e1L : minD ((c4cexdf1.drop (c4cexdf1.length - 20)).map Candle.low) = 80 := by
    decide
  have e1close : (c4cexdf1.getLastD default).close = 990 := by decide
  have e1len : ¬(c4cexdf1.length < 60) := by decide
  have e1pat : (detect_patterns c4cexdf1).1 = [] := by
    simp only [detect_patterns, if_neg e1len, e1drop, e1min, e1max, e1H, e1L, e1close,
      pairScan, List.nil_append]
    norm_num
  have e2min : minimaOf c4cexdf2 = [] := by decide
  have e2max : maximaOf c4cexdf2 = [] := by decide
  have e2drop : c4cexdf2.drop (c4cexdf2.length - 60) = c4cexdf2 := by decide
  have e2H : maxD ((c4cexdf2.drop (c4cexdf2.length - 20)).map Candle.high) = q1000004 := by
    decide
  have e2L : minD ((c4cexdf2.drop (c4cexdf2.length - 20)).map Candle.low) = 80 := by
    decide
  have e2close : (c4cexdf2.getLastD default).close = 1005 := by decide
  have e2len : ¬(c4cexdf2.length < 60) := by decide
  have e2pat : (detect_patterns c4cexdf2).1
      = [⟨PatternType.resistanceBreakout, none, none, 1000, Confidence.medium⟩] := by
    simp only [detect_patterns, if_neg e2len, e2drop, e2min, e2max, e2H, e2L, e2close,
      pairScan, List.nil_append, q1000004_eq]
    norm_num [round2, round_eq]
  refine ⟨⟨?_, ?_⟩, ?_⟩
  · rw [e1close, e1H]
    norm_num
  · rw [e1pat]
    simp
  · rw [e2pat, e2H]
    refine ⟨⟨PatternType.resistanceBreakout, none, none, 1000, Confidence.medium⟩,
      List.mem_singleton.mpr rfl, rfl, ?_⟩
    rw [q1000004_eq]
    norm_num

/-- A 60-row constant series used to witness C4. -/
def c4wdf : List Candle := List.replicate 60 ⟨0, 11, 10, 21/2, 1⟩

theorem detect_patterns_breakouts_witness :
    60 ≤ c4wdf.length
    ∧ (((∃ r ∈ (detect_patterns c4wdf).1, r.ptype = PatternType.resistanceBreakout)
      ↔ (maxD ((c4wdf.drop (c4wdf.length - 20)).map Candle.high) * (99/100)
            < (c4wdf.getLastD default).close
          ∧ (c4wdf.getLastD default).close
            < maxD ((c4wdf.drop (c4wdf.length - 20)).map Candle.high) * (102/100)))
    ∧ (∀ r ∈ (detect_patterns c4wdf).1, r.ptype = PatternType.resistanceBreakout →
        r = ⟨PatternType.resistanceBreakout, none, none,
             round2 (maxD ((c4wdf.drop (c4wdf.length - 20)).map Candle.high)),
             Confidence.medium⟩)
    ∧ ((∃ r ∈ (detect_patterns c4wdf).1, r.ptype = PatternType.supportBreakdown)
      ↔ ((c4wdf.getLastD default).close
            < minD ((c4wdf.drop (c4wdf.length - 20)).map Candle.low) * (101/100)
          ∧ minD ((c4wdf.drop (c4wdf.length - 20)).map Candle.low) * (98/100)
            < (c4wdf.getLastD default).close))
    ∧ (∀ r ∈ (detect_patterns c4wdf).1, r.ptype = PatternType.supportBreakdown →
        r = ⟨PatternType.supportBreakdown, none, none,
             round2 (minD ((c4wdf.drop (c4wdf.length - 20)).map Candle.low)),
             Confidence.medium⟩)) :=
  ⟨by simp [c4wdf], detect_patterns_breakouts c4wdf (by simp [c4wdf])⟩

lemma mem_ite_nil {α : Type} {c : Prop} [Decidable c] {l : List α} {x : α}
    (h : x ∈ if c then l else []) : c ∧ x ∈ l := by
  by_cases hc : c
  · rw [if_pos hc] at h
    exact ⟨hc, h⟩
  · rw [if_neg hc] at h
    exact absurd h (List.not_mem_nil x)

/-- The `mask.any()`-plus-max test of the double-bottom scan is the same
as asking for one strictly intervening row whose high exceeds the bound. -/
lemma between_max_iff (recent : List Candle) (d1 d2 : ℤ) (b : ℚ) :
    (recent.filter (fun c => decide (d1 < c.date ∧ c.date < d2)) ≠ []
      ∧ b < maxD ((recent.filter (fun c => decide (d1 < c.date ∧ c.date < d2))).map
          Candle.high))
    ↔ ∃ c ∈ recent, d1 < c.date ∧ c.date < d2 ∧ b < c.high := by
  constructor
  · rintro ⟨hne, hmax⟩
    have hmapne : (recent.filter (fun c => decide (d1 < c.date ∧ c.date < d2))).map
        Candle.high ≠ [] := by
      simpa using hne
    obtain ⟨c, hcf, hch⟩ := List.mem_map.mp (maxD_mem hmapne)
    have hc2 := List.mem_filter.mp hcf
    have hdate : d1 < c.date ∧ c.date < d2 := by
      have := hc2.2
      simpa using this
    rw [← hch] at hmax
    exact ⟨c, hc2.1, hdate.1, hdate.2, hmax⟩
  · rintro ⟨c, hcr, h1, h2, hb⟩
    have hcf : c ∈ recent.filter (fun c => decide (d1 < c.date ∧ c.date < d2)) :=
      List.mem_filter.mpr ⟨hcr, by simp [h1, h2]⟩
    constructor
    · intro h
      rw [h] at hcf
      exact List.not_mem_nil c hcf
    · exact lt_of_lt_of_le hb (le_maxD (List.mem_map_of_mem Candle.high hcf))

/-- Claim C8 (amended): for every series of ≥ 60 rows, the Double Bottom
records are exactly one record per ordered pair of local minima of the
trailing 60 rows whose lows differ by less than 3% of the first low,
whose dates are 10 to 60 days apart inclusive, with some strictly
intervening row whose high exceeds 1.05 × the first low; the record's
price_level is the mean of the two lows rounded to two decimals, with
confidence Medium. -/
theorem detect_patterns_double_bottom (df : List Candle) (h60 : 60 ≤ df.length) :
    ∀ r, (r ∈ (detect_patterns df).1 ∧ r.ptype = PatternType.doubleBottom)
      ↔ ∃ m1 m2, ([m1, m2] : List Candle).Sublist (minimaOf (df.drop (df.length - 60)))
          ∧ |m1.low - m2.low| / m1.low < 3/100
          ∧ 10 ≤ m2.date - m1.date ∧ m2.date - m1.date ≤ 60
          ∧ (∃ c ∈ df.drop (df.length - 60),
              m1.date < c.date ∧ c.date < m2.date ∧ m1.low * (105/100) < c.high)
          ∧ r = ⟨PatternType.doubleBottom, some m1.date, some m2.date,
                 round2 ((m1.low + m2.low) / 2), Confidence.medium⟩ := by
  have hlen : ¬(df.length < 60) := by omega
  have hsplit : (detect_patterns df).1 =
      pairScan (fun m1 m2 =>
        if dbCond (df.drop (df.length - 60)) m1 m2
        then some (dbRecord m1 m2) else none) (minimaOf (df.drop (df.length - 60)))
      ++ pairScan (fun m1 m2 =>
        if dtCond (df.drop (df.length - 60)) m1 m2
        then some (dtRecord m1 m2) else none) (maximaOf (df.drop (df.length - 60)))
      ++ ((if maxD ((df.drop (df.length - 20)).map Candle.high) * (99/100)
              < (df.getLastD default).close
            ∧ (df.getLastD default).close
              < maxD ((df.drop (df.length - 20)).map Candle.high) * (102/100)
          then [(⟨.resistanceBreakout, none, none,
                 round2 (maxD ((df.drop (df.length - 20)).map Candle.high)),
                 .medium⟩ : PatternRecord)]
          else [])
        ++ (if (df.getLastD default).close
              < minD ((df.drop (df.length - 20)).map Candle.low) * (101/100)
            ∧ minD ((df.drop (df.length - 20)).map Candle.low) * (98/100)
              < (df.getLastD default).close
            then [(⟨.supportBreakdown, none, none,
                   round2 (minD ((df.drop (df.length - 20)).map Candle.low)),
                   .medium⟩ : PatternRecord)]
            else [])) := by
    simp only [detect_patterns, if_neg hlen]
  intro r
  constructor
  · rintro ⟨hr, hrt⟩
    rw [hsplit] at hr
    rcases List.mem_append.mp hr with hr1 | hr2
    · rcases List.mem_append.mp hr1 with hrb | hrt2
      · obtain ⟨m1, m2, hs, hcond, rfl⟩ := (pairScan_if_mem _ _ _ _).mp hrb
        obtain ⟨h3, h10, h60d, hne, hmax⟩ := hcond
        obtain ⟨c, hcmem, hc1, hc2, hch⟩ :=
          (between_max_iff (df.drop (df.length - 60)) m1.date m2.date
            (m1.low * (105/100))).mp ⟨hne, hmax⟩
        exact ⟨m1, m2, hs, h3, h10, h60d, ⟨c, hcmem, hc1, hc2, hch⟩, rfl⟩
      · obtain ⟨m1, m2, _, _, rfl⟩ := (pairScan_if_mem _ _ _ _).mp hrt2
        exact absurd hrt (by simp [dtRecord])
    · rcases List.mem_append.mp hr2 with hrr | hrs
      · obtain ⟨_, hmem⟩ := mem_ite_nil hrr
        rcases List.mem_singleton.mp hmem with rfl
        exact absurd hrt (by simp)
      · obtain ⟨_, hmem⟩ := mem_ite_nil hrs
        rcases List.mem_singleton.mp hmem with rfl
        exact absurd hrt (by simp)
  · rintro ⟨m1, m2, hs, h3, h10, h60d, hint, rfl⟩
    have hcond : dbCond (df.drop (df.length - 60)) m1 m2 := by
      refine ⟨h3, h10, h60d, ?_, ?_⟩
      · exact ((between_max_iff (df.drop (df.length - 60)) m1.date m2.date
          (m1.low * (105/100))).mpr hint).1
      · exact ((between_max_iff (df.drop (df.length - 60)) m1.date m2.date
          (m1.low * (105/100))).mpr hint).2
    refine ⟨?_, rfl⟩
    rw [hsplit]
    refine List.mem_append.mpr (Or.inl (List.mem_append.mpr (Or.inl ?_)))
    exact (pairScan_if_mem _ _ _ _).mpr ⟨m1, m2, hs, hcond, rfl⟩

/-- The rational 50.001 = 50001/1000 in normalized constructor form. -/
def qlow1 : ℚ := ⟨50001, 1000, by decide, by decide⟩

/-- The rational 50.002 = 25001/500 in normalized constructor form. -/
def qlow2 : ℚ := ⟨25001, 500, by decide, by decide⟩

lemma qlow1_eq : qlow1 = (50001 : ℚ) / 1000 := by
  rw [← Rat.num_div_den qlow1]
  norm_num [show qlow1.num = 50001 from rfl, show qlow1.den = 1000 from rfl]

lemma qlow2_eq : qlow2 = (25001 : ℚ) / 500 := by
  rw [← Rat.num_div_den qlow2]
  norm_num [show qlow2.num = 25001 from rfl, show qlow2.den = 500 from rfl]

/-- The first trough of the double-bottom counterexample (low 50.001). -/
def r10c : Candle := ⟨10, 1110, qlow1, 101, 1⟩

/-- The second trough, 20 days later (low 50.002). -/
def r30c : Candle := ⟨30, 1130, qlow2, 101, 1⟩

/-- 60 rows with strictly increasing lows and highs except for the two
troughs at dates 10 and 30, whose lows differ by 0.002% and whose mean
50.0015 is not a two-decimal value. -/
def c8df : List Candle :=
  [⟨0, 1100, 100, 101, 1⟩, ⟨1, 1101, 101, 101, 1⟩, ⟨2, 1102, 102, 101, 1⟩, ⟨3, 1103, 103, 101, 1⟩,
   ⟨4, 1104, 104, 101, 1⟩, ⟨5, 1105, 105, 101, 1⟩, ⟨6, 1106, 106, 101, 1⟩, ⟨7, 1107, 107, 101, 1⟩,
   ⟨8, 1108, 108, 101, 1⟩, ⟨9, 1109, 109, 101, 1⟩, r10c, ⟨11, 1111, 111, 101, 1⟩,
   ⟨12, 1112, 112, 101, 1⟩, ⟨13, 1113, 113, 101, 1⟩, ⟨14, 1114, 114, 101, 1⟩,
   ⟨15, 1115, 115, 101, 1⟩, ⟨16, 1116, 116, 101, 1⟩, ⟨17, 1117, 117, 101, 1⟩,
   ⟨18, 1118, 118, 101, 1⟩, ⟨19, 1119, 119, 101, 1⟩, ⟨20, 1120, 120, 101, 1⟩,
   ⟨21, 1121, 121, 101, 1⟩, ⟨22, 1122, 122, 101, 1⟩, ⟨23, 1123, 123, 101, 1⟩,
   ⟨24, 1124, 124, 101, 1⟩, ⟨25, 1125, 125, 101, 1⟩, ⟨26, 1126, 126, 101, 1⟩,
   ⟨27, 1127, 127, 101, 1⟩, ⟨28, 1128, 128, 101, 1⟩, ⟨29, 1129, 129, 101, 1⟩, r30c,
   ⟨31, 1131, 131, 101, 1⟩, ⟨32, 1132, 132, 101, 1⟩, ⟨33, 1133, 133, 101, 1⟩,
   ⟨34, 1134, 134, 101, 1⟩, ⟨35, 1135, 135, 101, 1⟩, ⟨36, 1136, 136, 101, 1⟩,
   ⟨37, 1137, 137, 101, 1⟩, ⟨38, 1138, 138, 101, 1⟩, ⟨39, 1139, 139, 101, 1⟩,
   ⟨40, 1140, 140, 101, 1⟩, ⟨41, 1141, 141, 101, 1⟩, ⟨42, 1142, 142, 101, 1⟩,
   ⟨43, 1143, 143, 101, 1⟩, ⟨44, 1144, 144, 101, 1⟩, ⟨45, 1145, 145, 101, 1⟩,
   ⟨46, 1146, 146, 101, 1⟩, ⟨47, 1147, 147, 101, 1⟩, ⟨48, 1148, 148, 101, 1⟩,
   ⟨49, 1149, 149, 101, 1⟩, ⟨50, 1150, 150, 101, 1⟩, ⟨51, 1151, 151, 101, 1⟩,
   ⟨52, 1152, 152, 101, 1⟩, ⟨53, 1153, 153, 101, 1⟩, ⟨54, 1154, 154, 101, 1⟩,
   ⟨55, 1155, 155, 101, 1⟩, ⟨56, 1156, 156, 101, 1⟩, ⟨57, 1157, 157, 101, 1⟩,
   ⟨58, 1158, 158, 101, 1⟩, ⟨59, 1159, 159, 101, 1⟩]
set_option maxRecDepth 8000 in
lemma c8df_minima : minimaOf c8df = [r10c, r30c] := by decide

set_option maxRecDepth 8000 in
lemma c8df_maxima : maximaOf c8df = [] := by decide

set_option maxRecDepth 8000 in
/-- Claim C8 fails as stated: the qualifying pair of minima at dates 10
and 30 produces a record whose price_level is the two-decimal rounding
50.00 of the mean of the lows, not the exact mean 50.0015. -/
theorem detect_patterns_double_bottom_rounding_cex :
    (∃ r ∈ (detect_patterns c8df).1, r.ptype = PatternType.doubleBottom
      ∧ r.start_date = some 10 ∧ r.end_date = some 30 ∧ r.price_level = 50)
    ∧ (qlow1 + qlow2) / 2 ≠ 50 := by
  have elen : ¬(c8df.length < 60) := by decide
  have edrop : c8df.drop (c8df.length - 60) = c8df := by decide
  have eprice : round2 ((qlow1 + qlow2) / 2) = 50 := by
    rw [qlow1_eq, qlow2_eq]
    norm_num [round2, round_eq]
  have hfmax : maxD ((c8df.filter
      (fun c => decide (r10c.date < c.date ∧ c.date < r30c.date))).map
      Candle.high) = 1129 := by decide
  have econd : dbCond c8df r10c r30c := by
    refine ⟨?_, by decide, by decide, by decide, ?_⟩
    · rw [show r10c.low = qlow1 from rfl, show r30c.low = qlow2 from rfl,
        qlow1_eq, qlow2_eq,
        show |(50001:ℚ)/1000 - 25001/500| = 1/1000 by
          rw [show (50001:ℚ)/1000 - 25001/500 = -(1/1000) by norm_num, abs_neg,
            abs_of_pos (by norm_num : (0:ℚ) < 1/1000)]]
      norm_num
    · rw [hfmax, show r10c.low = qlow1 from rfl, qlow1_eq]
      norm_num
  have herec : (⟨PatternType.doubleBottom, some 10, some 30, 50,
      Confidence.medium⟩ : PatternRecord) = dbRecord r10c r30c := by
    unfold dbRecord
    rw [show r10c.date = 10 from rfl, show r30c.date = 30 from rfl,
      show r10c.low = qlow1 from rfl, show r30c.low = qlow2 from rfl, eprice]
  refine ⟨?_, ?_⟩
  · refine ⟨⟨PatternType.doubleBottom, some 10, some 30, 50, Confidence.medium⟩,
      ?_, rfl, rfl, rfl, rfl⟩
    simp only [detect_patterns, if_neg elen, edrop, c8df_minima, c8df_maxima]
    refine List.mem_append.mpr (Or.inl (List.mem_append.mpr (Or.inl ?_)))
    exact (pairScan_if_mem _ _ _ _).mpr ⟨r10c, r30c, List.Sublist.refl _, econd, herec⟩
  · rw [qlow1_eq, qlow2_eq]
    norm_num

theorem detect_patterns_double_bottom_witness :
    60 ≤ c4wdf.length
    ∧ ∀ r, (r ∈ (detect_patterns c4wdf).1 ∧ r.ptype = PatternType.doubleBottom)
      ↔ ∃ m1 m2, ([m1, m2] : List Candle).Sublist
            (minimaOf (c4wdf.drop (c4wdf.length - 60)))
          ∧ |m1.low - m2.low| / m1.low < 3/100
          ∧ 10 ≤ m2.date - m1.date ∧ m2.date - m1.date ≤ 60
          ∧ (∃ c ∈ c4wdf.drop (c4wdf.length - 60),
              m1.date < c.date ∧ c.date < m2.date ∧ m1.low * (105/100) < c.high)
          ∧ r = ⟨PatternType.doubleBottom, some m1.date, some m2.date,
                 round2 ((m1.low + m2.low) / 2), Confidence.medium⟩ :=
  ⟨by simp [c4wdf], detect_patterns_double_bottom c4wdf (by simp [c4wdf])⟩
